import Mathlib

/-!
Verification of the MetAtlas 3D network viewer core
(`src/met-atlas-viewer.js`, `src/helpers.js`, `src/atlas-viewer-controls.js`).

The JavaScript source is shallowly embedded: mutable buffers become total
functions from slot indices to colors, the selection / hover machinery becomes
explicit state passing on a `ViewerState` record, JavaScript numbers used as
array indices and color channels become `Nat`, graph positions and animation
times become `ℚ`, and the trackball-camera geometry (which genuinely uses
square roots) is embedded over `ℝ`.
-/

/-- An RGB triple, one byte per channel (the viewer stores colors as three
consecutive `Uint8` entries of a buffer attribute). -/
structure Color3 where
  r : Nat
  g : Nat
  b : Nat
deriving DecidableEq, Repr

/-- The mutable `defaultColors` table of `helpers.js`, as an explicit record
(the `setColors` API overwrites entries, so all state-machine functions take
the palette as a parameter). -/
structure Palette where
  nodeDefaultColor : Color3
  connectionStartColor : Color3
  connectionEndColor : Color3
  nodeSelectColor : Color3
  connectionSelectColor : Color3
  hoverSelectColor : Color3
  hoverConnectionColor : Color3
deriving DecidableEq, Repr

/-- The default palette values from `helpers.js`. -/
def defaultColorsTable : Palette :=
  { nodeDefaultColor := ⟨255, 255, 255⟩
    connectionStartColor := ⟨0, 127, 255⟩
    connectionEndColor := ⟨0, 127, 0⟩
    nodeSelectColor := ⟨255, 0, 0⟩
    connectionSelectColor := ⟨255, 255, 0⟩
    hoverSelectColor := ⟨255, 0, 255⟩
    hoverConnectionColor := ⟨255, 0, 0⟩ }

/-- Index-color encoding of a node index, from `setData`:
`indexColors.push(Math.floor(i / (256 * 256)), Math.floor(i / 256) % 256, i % 256)`. -/
def encodeIndexColor (i : Nat) : Color3 :=
  ⟨i / (256 * 256), (i / 256) % 256, i % 256⟩

/-- Pixel decoding of `pickInScene`:
`(pixelBuffer[0] << 16) | (pixelBuffer[1] << 8) | pixelBuffer[2]`. -/
def decodePixel (r g b : Nat) : Nat :=
  (r <<< 16) ||| (g <<< 8) ||| b

theorem decodePixel_eq (r g b : Nat) (hg : g < 256) (hb : b < 256) :
    decodePixel r g b = 65536 * r + 256 * g + b := by
  unfold decodePixel
  rw [Nat.shiftLeft_eq, Nat.shiftLeft_eq]
  have h1 : (r * 2 ^ 16) ||| (g * 2 ^ 8) = 2 ^ 16 * r + g * 2 ^ 8 := by
    rw [Nat.mul_comm r]
    exact (Nat.mul_add_lt_is_or (by omega) r).symm
  have h2 : (2 ^ 16 * r + g * 2 ^ 8) ||| b = 2 ^ 8 * (2 ^ 8 * r + g) + b := by
    have : 2 ^ 16 * r + g * 2 ^ 8 = 2 ^ 8 * (2 ^ 8 * r + g) := by ring
    rw [this]
    exact (Nat.mul_add_lt_is_or (by omega) (2 ^ 8 * r + g)).symm
  rw [h1, h2]
  ring

/-- C1: for every node index `i` with `0 ≤ i ≤ 16,777,214`, decoding the
index color assigned by the build step yields `i` again, the all-255 triple is
never assigned, and consequently on any graph with at most 16,777,215 nodes the
index-color assignment is injective (a bijection onto its image) over
`[0, nodeCount)`. -/
theorem indexColor_bijection :
    (∀ i : Nat, i ≤ 16777214 →
      decodePixel (encodeIndexColor i).r (encodeIndexColor i).g (encodeIndexColor i).b = i ∧
      encodeIndexColor i ≠ ⟨255, 255, 255⟩) ∧
    (∀ nodeCount : Nat, nodeCount ≤ 16777215 →
      ∀ i < nodeCount, ∀ j < nodeCount, encodeIndexColor i = encodeIndexColor j → i = j) := by
  have hdec : ∀ i : Nat, i ≤ 16777214 →
      decodePixel (encodeIndexColor i).r (encodeIndexColor i).g (encodeIndexColor i).b = i := by
    intro i hi
    simp only [encodeIndexColor]
    rw [decodePixel_eq _ _ _ (Nat.mod_lt _ (by norm_num)) (Nat.mod_lt _ (by norm_num))]
    omega
  refine ⟨fun i hi => ⟨hdec i hi, ?_⟩, fun nodeCount hn i hi j hj heq => ?_⟩
  · intro hwhite
    have h1 : i / (256 * 256) = 255 := congrArg Color3.r hwhite
    have h2 : (i / 256) % 256 = 255 := congrArg Color3.g hwhite
    have h3 : i % 256 = 255 := congrArg Color3.b hwhite
    omega
  · have hi' : i ≤ 16777214 := by omega
    have hj' : j ≤ 16777214 := by omega
    have := hdec i hi'
    rw [heq, hdec j hj'] at this
    exact this.symm

/-- Witness for `indexColor_bijection` at the concrete index 300000. -/
theorem indexColor_bijection_witness :
    decodePixel (encodeIndexColor 300000).r (encodeIndexColor 300000).g
      (encodeIndexColor 300000).b = 300000 ∧
    encodeIndexColor 300000 ≠ ⟨255, 255, 255⟩ :=
  indexColor_bijection.1 300000 (by decide)

/-! ## Graph builder (`setData`)

`setData` turns raw node/link lists into position, color and index-color
buffers, a node-id lookup table, per-node connection records and per-group
material partitions.  Texture images, promises and the three-js scene graph
are external collaborators; everything arithmetic is embedded below.  Color
buffers hold one `Color3` per vertex (three `Uint8` array entries in the
source); line buffers hold one entry per edge-endpoint slot. -/

/-- A 3-D position, `ℚ` in place of IEEE doubles (no position arithmetic in
the builder is rounding-sensitive: positions are only copied). -/
structure Vec3Q where
  x : ℚ
  y : ℚ
  z : ℚ
deriving DecidableEq, Repr

/-- An input node of `graphData.nodes`. -/
structure NodeIn where
  id : String
  pos : Vec3Q
  g : String
  n : String
  color : Option Color3
deriving DecidableEq, Repr

/-- An input link of `graphData.links`. -/
structure LinkIn where
  s : String
  t : String
deriving DecidableEq, Repr

/-- An input texture descriptor of `nodeTextures` (the sprite image itself is
decoded externally and carries no graph information). -/
structure TexIn where
  group : String
deriving DecidableEq, Repr

/-- An entry of the `nodeIndex` id table: `nodeIndex[node.id] = {pos, index}`. -/
structure IdxEntry where
  pos : Vec3Q
  index : Nat
deriving DecidableEq, Repr

/-- A connection record pushed into `nodeInfo[...].connections.to/from`:
`{index: <edge color-slot index>, neighbor: <node id>}`. -/
structure ConnRec where
  index : Nat
  neighbor : String
deriving DecidableEq, Repr

/-- A `nodeInfo` record (the DOM label element is external and omitted). -/
structure NodeRec where
  id : String
  name : String
  pos : Vec3Q
  color : Color3
  connsTo : List ConnRec
  connsFrom : List ConnRec
  index : Nat
  group : String
deriving DecidableEq, Repr

/-- `nodes.sort((a, b) => a.g.localeCompare(b.g))`: a stable sort by group
label. -/
def sortNodes (nodes : List NodeIn) : List NodeIn :=
  nodes.mergeSort (fun a b => decide (a.g ≤ b.g))

/-- `nodeTextures.sort((a, b) => a.group.localeCompare(b.group))`. -/
def sortTextures (texs : List TexIn) : List TexIn :=
  texs.mergeSort (fun a b => decide (a.group ≤ b.group))

/-- Accumulator of the `nodes.forEach((node, i) => ...)` loop of `setData`. -/
structure NodePhase where
  nodeIndexFun : String → Option IdxEntry
  nodeInfo : List NodeRec
  nodePositions : List Vec3Q
  nodeColors : List Color3
  indexColors : List Color3

/-- One iteration of the node loop: push position, count the group later via
`nodeGroupsFun`, push resting color (`node.color` overrides the default),
push the index color, record the id-table entry and the `nodeInfo` record. -/
def nodePhaseStep (pal : Palette) (acc : NodePhase) (p : Nat × NodeIn) : NodePhase :=
  let node := p.2
  let restColor := node.color.getD pal.nodeDefaultColor
  { nodeIndexFun := Function.update acc.nodeIndexFun node.id (some ⟨node.pos, p.1⟩)
    nodeInfo := acc.nodeInfo ++
      [⟨node.id, node.n, node.pos, restColor, [], [], p.1, node.g⟩]
    nodePositions := acc.nodePositions ++ [node.pos]
    nodeColors := acc.nodeColors ++ [restColor]
    indexColors := acc.indexColors ++ [encodeIndexColor p.1] }

/-- The whole node loop, on the group-sorted node list. -/
def runNodePhase (pal : Palette) (sorted : List NodeIn) : NodePhase :=
  sorted.enum.foldl (nodePhaseStep pal) ⟨fun _ => none, [], [], [], []⟩

/-- `nodeInfo[i].<field> = ...`: update the record at position `i` if present. -/
def modifyInfoAt (l : List NodeRec) (i : Nat) (f : NodeRec → NodeRec) : List NodeRec :=
  match l[i]? with
  | none => l
  | some x => l.set i (f x)

/-- Accumulator of the link loop of `setData`. -/
structure LinkPhase where
  nodeInfo : List NodeRec
  linePositions : List Vec3Q
  lineColors : List Color3
  warnings : List String

/-- One iteration of the link loop (`p.1` is the original link position `i`):
a link whose start or end id is missing from the id table is skipped with a
warning; otherwise two endpoint slots are pushed (start color then end color)
and connection records with color-slot indices `2 i + 1` (on the source) and
`2 i` (on the target) are pushed. -/
def linkPhaseStep (pal : Palette) (idxF : String → Option IdxEntry)
    (acc : LinkPhase) (p : Nat × LinkIn) : LinkPhase :=
  match idxF p.2.s with
  | none => { acc with warnings := acc.warnings ++ ["ignoring link: start node is not in the node list"] }
  | some es =>
    match idxF p.2.t with
    | none => { acc with warnings := acc.warnings ++ ["ignoring link: end node is not in the node list"] }
    | some et =>
      { acc with
        linePositions := acc.linePositions ++ [es.pos, et.pos]
        lineColors := acc.lineColors ++ [pal.connectionStartColor, pal.connectionEndColor]
        nodeInfo :=
          modifyInfoAt
            (modifyInfoAt acc.nodeInfo es.index
              (fun nd => { nd with connsTo := nd.connsTo ++ [⟨2 * p.1 + 1, p.2.t⟩] }))
            et.index
            (fun nd => { nd with connsFrom := nd.connsFrom ++ [⟨2 * p.1, p.2.s⟩] }) }

/-- The whole link loop. -/
def runLinkPhase (pal : Palette) (idxF : String → Option IdxEntry)
    (info : List NodeRec) (links : List LinkIn) : LinkPhase :=
  links.enum.foldl (linkPhaseStep pal idxF) ⟨info, [], [], []⟩

/-- The `nodeGroups` tally object : `nodeGroups[node.g]` is `undefined` until
the first node of that group is seen, then the number of nodes seen so far. -/
def nodeGroupsFun (nodes : List NodeIn) : String → Option Nat :=
  nodes.foldl (fun f nd => Function.update f nd.g (some ((f nd.g).getD 0 + 1))) (fun _ => none)

/-- JavaScript `last += current` where either side may be `undefined`/`NaN`
(`none`): any `undefined` poisons the running offset. -/
def optAdd : Option Nat → Option Nat → Option Nat
  | some a, some b => some (a + b)
  | _, _ => none

/-- One iteration of the material-partition loop:
`let current = nodeGroups[texture.group]; addGroup(last, current, i); last += current`
(registered identically on the node geometry and on the index geometry).
Each recorded entry is `(start, count, materialIndex)`. -/
def matStep (groupsOf : String → Option Nat)
    (acc : Option Nat × List (Option Nat × Option Nat × Nat)) (p : Nat × TexIn) :
    Option Nat × List (Option Nat × Option Nat × Nat) :=
  let current := groupsOf p.2.group
  (optAdd acc.1 current, acc.2 ++ [(acc.1, current, p.1)])

/-- The whole material-partition loop, starting from `last = 0`. -/
def matGroupsFold (groupsOf : String → Option Nat) (texs : List TexIn) :
    List (Option Nat × Option Nat × Nat) :=
  (texs.enum.foldl (matStep groupsOf) (some 0, [])).2

/-- Everything `setData` builds that the claims talk about. -/
structure BuildResult where
  nodeIndexFun : String → Option IdxEntry
  nodeInfo : List NodeRec
  nodePositions : List Vec3Q
  nodeColors : List Color3
  indexColors : List Color3
  linePositions : List Vec3Q
  lineColors : List Color3
  matGroups : List (Option Nat × Option Nat × Nat)
  warnings : List String

/-- The pure core of `setData`: sort nodes and textures by group, run the
node loop, the link loop and the material-partition loop.  Never fails: bad
links only add warnings. -/
def buildData (pal : Palette) (nodes : List NodeIn) (links : List LinkIn)
    (textures : List TexIn) : BuildResult :=
  let sorted := sortNodes nodes
  let texs := sortTextures textures
  let np := runNodePhase pal sorted
  let lp := runLinkPhase pal np.nodeIndexFun np.nodeInfo links
  { nodeIndexFun := np.nodeIndexFun
    nodeInfo := lp.nodeInfo
    nodePositions := np.nodePositions
    nodeColors := np.nodeColors
    indexColors := np.indexColors
    linePositions := lp.linePositions
    lineColors := lp.lineColors
    matGroups := matGroupsFold (nodeGroupsFun sorted) texs
    warnings := lp.warnings }

/-! ### C3: every link with both endpoints present contributes one edge -/

/-- A link is kept by the link loop exactly when both endpoint ids resolve in
the id table. -/
def linkKept (idxF : String → Option IdxEntry) (l : LinkIn) : Bool :=
  (idxF l.s).isSome && (idxF l.t).isSome

theorem enumFrom_any_snd {α : Type} (p : α → Bool) :
    ∀ (l : List α) (n : Nat), (l.enumFrom n).any (fun q => p q.2) = l.any p := by
  intro l
  induction l with
  | nil => intro n; rfl
  | cons a l ih => intro n; simp [List.enumFrom, ih]

theorem enumFrom_countP_snd {α : Type} (p : α → Bool) :
    ∀ (l : List α) (n : Nat), (l.enumFrom n).countP (fun q => p q.2) = l.countP p := by
  intro l
  induction l with
  | nil => intro n; rfl
  | cons a l ih => intro n; simp [List.enumFrom, List.countP_cons, ih]

theorem countP_not_eq {α : Type} (p : α → Bool) (l : List α) :
    l.countP (fun a => !(p a)) = l.length - l.countP p := by
  induction l with
  | nil => rfl
  | cons a l ih =>
    have hle : l.countP p ≤ l.length := List.countP_le_length p
    by_cases h : p a <;> (simp [List.countP_cons, h, ih]; try omega)

theorem linkPhaseStep_lengths (pal : Palette) (idxF : String → Option IdxEntry)
    (acc : LinkPhase) (a : Nat × LinkIn) :
    (linkPhaseStep pal idxF acc a).linePositions.length
      = acc.linePositions.length + (if linkKept idxF a.2 then 2 else 0) ∧
    (linkPhaseStep pal idxF acc a).lineColors.length
      = acc.lineColors.length + (if linkKept idxF a.2 then 2 else 0) ∧
    (linkPhaseStep pal idxF acc a).warnings.length
      = acc.warnings.length + (if linkKept idxF a.2 then 0 else 1) := by
  rcases hs : idxF a.2.s with _ | es <;> rcases ht : idxF a.2.t with _ | et <;>
    simp [linkPhaseStep, linkKept, hs, ht]

theorem linkPhase_lengths (pal : Palette) (idxF : String → Option IdxEntry) :
    ∀ (l : List (Nat × LinkIn)) (acc : LinkPhase),
      (l.foldl (linkPhaseStep pal idxF) acc).linePositions.length
        = acc.linePositions.length + 2 * l.countP (fun p => linkKept idxF p.2) ∧
      (l.foldl (linkPhaseStep pal idxF) acc).lineColors.length
        = acc.lineColors.length + 2 * l.countP (fun p => linkKept idxF p.2) ∧
      (l.foldl (linkPhaseStep pal idxF) acc).warnings.length
        = acc.warnings.length + l.countP (fun p => !(linkKept idxF p.2)) := by
  intro l
  induction l with
  | nil => intro acc; simp
  | cons a l ih =>
    intro acc
    obtain ⟨s1, s2, s3⟩ := linkPhaseStep_lengths pal idxF acc a
    obtain ⟨ih1, ih2, ih3⟩ := ih (linkPhaseStep pal idxF acc a)
    simp only [List.foldl_cons, List.countP_cons]
    refine ⟨?_, ?_, ?_⟩
    · rw [ih1, s1]; by_cases h : linkKept idxF a.2 <;> (simp [h]; try omega)
    · rw [ih2, s2]; by_cases h : linkKept idxF a.2 <;> (simp [h]; try omega)
    · rw [ih3, s3]; by_cases h : linkKept idxF a.2 <;> (simp [h]; try omega)

theorem nodePhase_idx_isSome (pal : Palette) :
    ∀ (l : List (Nat × NodeIn)) (acc : NodePhase) (id : String),
      ((l.foldl (nodePhaseStep pal) acc).nodeIndexFun id).isSome
        = (l.any (fun p => p.2.id == id) || (acc.nodeIndexFun id).isSome) := by
  intro l
  induction l with
  | nil => intro acc id; simp
  | cons a l ih =>
    intro acc id
    simp only [List.foldl_cons, List.any_cons, ih]
    simp only [nodePhaseStep, Function.update_apply]
    by_cases h : id = a.2.id
    · simp [h]
    · have : ¬(a.2.id == id) := by simpa [beq_iff_eq] using fun hh => h hh.symm
      simp [h, this]

/-- C3: for every input node and link list, the number of edges in the built
edge geometry (`linePositions`/`lineColors` hold two endpoint slots per edge)
equals the number of links whose source id and target id both occur in the
node set; every link with a missing endpoint only appends a warning
(`buildData` is total, so `setData`'s build step never fails on such links). -/
theorem edge_count_matches_valid_links (pal : Palette) (nodes : List NodeIn)
    (links : List LinkIn) (textures : List TexIn) :
    (buildData pal nodes links textures).linePositions.length
      = 2 * (links.filter (fun l =>
          nodes.any (fun nd => nd.id == l.s) && nodes.any (fun nd => nd.id == l.t))).length ∧
    (buildData pal nodes links textures).lineColors.length
      = 2 * (links.filter (fun l =>
          nodes.any (fun nd => nd.id == l.s) && nodes.any (fun nd => nd.id == l.t))).length ∧
    (buildData pal nodes links textures).warnings.length
      = links.length - (links.filter (fun l =>
          nodes.any (fun nd => nd.id == l.s) && nodes.any (fun nd => nd.id == l.t))).length := by
  have hidx : ∀ id : String,
      ((runNodePhase pal (sortNodes nodes)).nodeIndexFun id).isSome
        = nodes.any (fun nd => nd.id == id) := by
    intro id
    rw [runNodePhase, nodePhase_idx_isSome]
    have h1 : (sortNodes nodes).enum.any (fun p => p.2.id == id)
        = (sortNodes nodes).any (fun nd => nd.id == id) := by
      have h := enumFrom_any_snd (fun nd => nd.id == id) (sortNodes nodes) 0
      simpa using h
    have h2 : (sortNodes nodes).any (fun nd => nd.id == id)
        = nodes.any (fun nd => nd.id == id) := by
      rw [← Bool.coe_iff_coe]
      simp [sortNodes, List.any_eq_true]
    simp [h1, h2]
  have hkept : ∀ p : Nat × LinkIn,
      linkKept (runNodePhase pal (sortNodes nodes)).nodeIndexFun p.2
        = (nodes.any (fun nd => nd.id == p.2.s) && nodes.any (fun nd => nd.id == p.2.t)) := by
    intro p
    rw [linkKept, hidx, hidx]
  obtain ⟨h1, h2, h3⟩ := linkPhase_lengths pal
    (runNodePhase pal (sortNodes nodes)).nodeIndexFun links.enum
    ⟨(runNodePhase pal (sortNodes nodes)).nodeInfo, [], [], []⟩
  have hcnt : links.enum.countP
      (fun p => linkKept (runNodePhase pal (sortNodes nodes)).nodeIndexFun p.2)
      = (links.filter (fun l =>
          nodes.any (fun nd => nd.id == l.s) && nodes.any (fun nd => nd.id == l.t))).length := by
    rw [← List.countP_eq_length_filter]
    have heq : links.enum.countP
        (fun p => linkKept (runNodePhase pal (sortNodes nodes)).nodeIndexFun p.2)
        = links.enum.countP (fun p =>
          nodes.any (fun nd => nd.id == p.2.s) && nodes.any (fun nd => nd.id == p.2.t)) := by
      congr 1
      funext p
      rw [hkept]
    rw [heq]
    have h := enumFrom_countP_snd
      (fun l => nodes.any (fun nd => nd.id == l.s) && nodes.any (fun nd => nd.id == l.t)) links 0
    simpa using h
  have hcntNeg : links.enum.countP
      (fun p => !(linkKept (runNodePhase pal (sortNodes nodes)).nodeIndexFun p.2))
      = links.length - links.enum.countP
        (fun p => linkKept (runNodePhase pal (sortNodes nodes)).nodeIndexFun p.2) := by
    have hlen : links.enum.length = links.length := by simp
    rw [countP_not_eq, hlen]
  refine ⟨?_, ?_, ?_⟩
  · show (runLinkPhase pal _ _ links).linePositions.length = _
    rw [runLinkPhase, h1, hcnt]; simp
  · show (runLinkPhase pal _ _ links).lineColors.length = _
    rw [runLinkPhase, h2, hcnt]; simp
  · show (runLinkPhase pal _ _ links).warnings.length = _
    rw [runLinkPhase, h3, hcntNeg, hcnt]; simp

/-! ### C9: material partitions are disjoint consecutive ranges -/

theorem nodeGroups_go (ns : List NodeIn) :
    ∀ (f0 : String → Option Nat) (g : String),
      (ns.foldl
          (fun (f : String → Option Nat) nd =>
            Function.update f nd.g (some ((f nd.g).getD 0 + 1))) f0) g
        = if ns.countP (fun nd => nd.g == g) = 0 then f0 g
          else some ((f0 g).getD 0 + ns.countP (fun nd => nd.g == g)) := by
  induction ns with
  | nil => intro f0 g; simp
  | cons nd ns ih =>
    intro f0 g
    rw [List.foldl_cons, ih, List.countP_cons]
    by_cases h : nd.g = g
    · have hupd : Function.update f0 nd.g (some ((f0 nd.g).getD 0 + 1)) g
          = some ((f0 g).getD 0 + 1) := by
        rw [Function.update_apply, if_pos h.symm, h]
      have hbeq : (nd.g == g) = true := by simp [h]
      by_cases h0 : ns.countP (fun nd => nd.g == g) = 0
      · simp [h0, hupd, hbeq]
      · have hne : ¬(ns.countP (fun nd => nd.g == g) + 1 = 0) := by omega
        simp only [hupd, hbeq, if_true, h0, if_false, hne, Option.getD_some]
        congr 1
        omega
    · have hupd : Function.update f0 nd.g (some ((f0 nd.g).getD 0 + 1)) g = f0 g := by
        rw [Function.update_apply, if_neg (fun hh => h hh.symm)]
      have hbeq : (nd.g == g) = false := by simp [h]
      simp [hupd, hbeq]

theorem nodeGroupsFun_eq (ns : List NodeIn) (g : String) :
    nodeGroupsFun ns g
      = if ns.countP (fun nd => nd.g == g) = 0 then none
        else some (ns.countP (fun nd => nd.g == g)) := by
  rw [nodeGroupsFun, nodeGroups_go]
  by_cases h : ns.countP (fun nd => nd.g == g) = 0 <;> simp [h]

/-- The material partitions as consecutive `[start, start + count)` ranges:
`materialRanges start counts` lists one `(start, count)` pair per texture
group, each range beginning where the previous one ended. -/
def materialRanges : Nat → List Nat → List (Nat × Nat)
  | _, [] => []
  | start, c :: cs => (start, c) :: materialRanges (start + c) cs

theorem materialRanges_bounds :
    ∀ (cs : List Nat) (s : Nat), ∀ r ∈ materialRanges s cs, s ≤ r.1 ∧ r.1 + r.2 ≤ s + cs.sum := by
  intro cs
  induction cs with
  | nil => intro s r hr; simp [materialRanges] at hr
  | cons c cs ih =>
    intro s r hr
    rw [materialRanges] at hr
    rcases List.mem_cons.mp hr with hr | hr
    · subst hr; simp only [List.sum_cons]; omega
    · have := ih (s + c) r hr
      simp only [List.sum_cons]
      omega

theorem materialRanges_cover :
    ∀ (cs : List Nat) (s k : Nat), s ≤ k → k < s + cs.sum →
      ∃ r ∈ materialRanges s cs, r.1 ≤ k ∧ k < r.1 + r.2 := by
  intro cs
  induction cs with
  | nil => intro s k h1 h2; simp at h2; omega
  | cons c cs ih =>
    intro s k h1 h2
    by_cases hc : k < s + c
    · exact ⟨(s, c), by rw [materialRanges]; exact List.mem_cons_self _ _, h1, hc⟩
    · have h2' : k < (s + c) + cs.sum := by simp only [List.sum_cons] at h2; omega
      obtain ⟨r, hr, hk⟩ := ih (s + c) k (by omega) h2'
      exact ⟨r, by rw [materialRanges]; exact List.mem_cons_of_mem _ hr, hk⟩

theorem materialRanges_unique :
    ∀ (cs : List Nat) (s k : Nat) (r1 r2 : Nat × Nat),
      r1 ∈ materialRanges s cs → r2 ∈ materialRanges s cs →
      r1.1 ≤ k → k < r1.1 + r1.2 → r2.1 ≤ k → k < r2.1 + r2.2 → r1 = r2 := by
  intro cs
  induction cs with
  | nil => intro s k r1 r2 h1; simp [materialRanges] at h1
  | cons c cs ih =>
    intro s k r1 r2 h1 h2 ha1 hb1 ha2 hb2
    rw [materialRanges] at h1 h2
    rcases List.mem_cons.mp h1 with h1 | h1 <;> rcases List.mem_cons.mp h2 with h2 | h2
    · rw [h1, h2]
    · subst h1
      have := (materialRanges_bounds cs (s + c) r2 h2).1
      simp only at hb1
      omega
    · subst h2
      have := (materialRanges_bounds cs (s + c) r1 h1).1
      simp only at hb2
      omega
    · exact ih (s + c) k r1 r2 h1 h2 ha1 hb1 ha2 hb2

theorem matFold_go (groupsOf : String → Option Nat) (cntF : TexIn → Nat) :
    ∀ (texs : List TexIn) (k s : Nat)
      (done : List (Option Nat × Option Nat × Nat)),
      (∀ t ∈ texs, groupsOf t.group = some (cntF t)) →
      ((texs.enumFrom k).foldl (matStep groupsOf) (some s, done)).2
        = done ++ ((materialRanges s (texs.map cntF)).enumFrom k).map
            (fun p => (some p.2.1, some p.2.2, p.1)) := by
  intro texs
  induction texs with
  | nil => intro k s done _; simp [materialRanges]
  | cons t ts ih =>
    intro k s done hall
    have ht : groupsOf t.group = some (cntF t) := hall t (List.mem_cons_self _ _)
    have hts : ∀ t' ∈ ts, groupsOf t'.group = some (cntF t') :=
      fun t' h => hall t' (List.mem_cons_of_mem _ h)
    simp only [List.enumFrom, List.foldl_cons, List.map_cons, materialRanges]
    have hstep : matStep groupsOf (some s, done) (k, t)
        = (some (s + cntF t), done ++ [(some s, some (cntF t), k)]) := by
      simp [matStep, ht, optAdd]
    rw [hstep, ih (k + 1) (s + cntF t) (done ++ [(some s, some (cntF t), k)]) hts]
    simp

theorem sum_map_add_nat {α : Type} (l : List α) (f g : α → Nat) :
    (l.map (fun x => f x + g x)).sum = (l.map f).sum + (l.map g).sum := by
  induction l with
  | nil => rfl
  | cons a l ih =>
    simp only [List.map_cons, List.sum_cons, ih]
    omega

theorem sum_map_zero_of {α : Type} (l : List α) (f : α → Nat)
    (h : ∀ x ∈ l, f x = 0) : (l.map f).sum = 0 := by
  induction l with
  | nil => rfl
  | cons a l ih =>
    simp only [List.map_cons, List.sum_cons, h a (List.mem_cons_self _ _),
      ih (fun x hx => h x (List.mem_cons_of_mem _ hx))]

theorem sum_map_indicator (x : String) :
    ∀ (gs : List TexIn), (gs.map TexIn.group).Nodup → (∃ t ∈ gs, t.group = x) →
      (gs.map (fun t => if x == t.group then 1 else 0)).sum = 1 := by
  intro gs
  induction gs with
  | nil => intro _ hx; simp at hx
  | cons t ts ih =>
    intro hnd hx
    rw [List.map_cons, List.nodup_cons] at hnd
    by_cases h : x = t.group
    · have hz : (ts.map (fun t' => if x == t'.group then 1 else 0)).sum = 0 := by
        apply sum_map_zero_of
        intro t' ht'
        have hne : t'.group ≠ x := by
          intro hEq
          apply hnd.1
          rw [h] at hEq
          exact hEq ▸ List.mem_map_of_mem TexIn.group ht'
        have : ¬(x == t'.group) = true := by
          simp only [beq_iff_eq]
          exact fun hh => hne hh.symm
        simp [this]
      simp only [List.map_cons, List.sum_cons, hz]
      simp [h]
    · have hx' : ∃ t' ∈ ts, t'.group = x := by
        rcases hx with ⟨t', ht', hg⟩
        rcases List.mem_cons.mp ht' with rfl | hmem
        · exact absurd hg.symm h
        · exact ⟨t', hmem, hg⟩
      simp only [List.map_cons, List.sum_cons]
      rw [ih hnd.2 hx']
      simp [h]

theorem sum_countP_eq_length (texs : List TexIn) :
    ∀ ns : List NodeIn, (texs.map TexIn.group).Nodup →
      (∀ nd ∈ ns, ∃ t ∈ texs, t.group = nd.g) →
      (texs.map (fun t => ns.countP (fun nd => nd.g == t.group))).sum = ns.length := by
  intro ns
  induction ns with
  | nil => intro _ _; simp
  | cons nd ns ih =>
    intro hnd hcov
    have hcov' : ∀ nd' ∈ ns, ∃ t ∈ texs, t.group = nd'.g :=
      fun nd' h => hcov nd' (List.mem_cons_of_mem _ h)
    have hfun : (fun t : TexIn => (nd :: ns).countP (fun nd' => nd'.g == t.group))
        = (fun t : TexIn => ns.countP (fun nd' => nd'.g == t.group)
            + if nd.g == t.group then 1 else 0) := by
      funext t
      rw [List.countP_cons]
    rw [hfun, sum_map_add_nat, ih hnd hcov',
      sum_map_indicator nd.g texs hnd (hcov nd (List.mem_cons_self _ _))]
    simp

/-- The per-texture-group node counts, in sorted texture order, as the built
partition sizes realize them. -/
def builtGroupCounts (nodes : List NodeIn) (textures : List TexIn) : List Nat :=
  (sortTextures textures).map (fun t => (sortNodes nodes).countP (fun nd => nd.g == t.group))

/-- C9: when the texture groups are distinct, cover every node group and are
each inhabited, the material partitions registered by `setData` on the node
and index geometries (the same `addGroup` calls go to both) are exactly the
consecutive ranges `[start, start + count)` of `materialRanges`; those ranges
are pairwise disjoint and together cover `[0, nodeCount)`: every node index
lies in exactly one range, and every range stays inside `[0, nodeCount)`. -/
theorem material_partition (pal : Palette) (nodes : List NodeIn) (links : List LinkIn)
    (textures : List TexIn)
    (hnd : (textures.map TexIn.group).Nodup)
    (hcov : ∀ nd ∈ nodes, ∃ t ∈ textures, t.group = nd.g)
    (hne : ∀ t ∈ textures, ∃ nd ∈ nodes, nd.g = t.group) :
    (buildData pal nodes links textures).matGroups
      = ((materialRanges 0 (builtGroupCounts nodes textures)).enumFrom 0).map
          (fun p => (some p.2.1, some p.2.2, p.1)) ∧
    (∀ k, k < nodes.length →
      ∃! r : Nat × Nat, r ∈ materialRanges 0 (builtGroupCounts nodes textures)
        ∧ r.1 ≤ k ∧ k < r.1 + r.2) ∧
    (∀ r ∈ materialRanges 0 (builtGroupCounts nodes textures), r.1 + r.2 ≤ nodes.length) := by
  have hsum : (builtGroupCounts nodes textures).sum = nodes.length := by
    rw [builtGroupCounts]
    have hnd' : ((sortTextures textures).map TexIn.group).Nodup := by
      have hperm : List.Perm (sortTextures textures) textures := List.mergeSort_perm textures _
      exact ((hperm.map TexIn.group).nodup_iff).mpr hnd
    have hcov' : ∀ nd ∈ sortNodes nodes, ∃ t ∈ sortTextures textures, t.group = nd.g := by
      intro nd hmem
      obtain ⟨t, ht, hg⟩ := hcov nd (by simpa [sortNodes] using hmem)
      exact ⟨t, by simpa [sortTextures] using ht, hg⟩
    rw [sum_countP_eq_length (sortTextures textures) (sortNodes nodes) hnd' hcov']
    exact (List.mergeSort_perm nodes _).length_eq
  have hpos : ∀ t ∈ sortTextures textures,
      0 < (sortNodes nodes).countP (fun nd => nd.g == t.group) := by
    intro t ht
    obtain ⟨nd, hmem, hg⟩ := hne t (by simpa [sortTextures] using ht)
    exact List.countP_pos_iff.mpr ⟨nd, by simpa [sortNodes] using hmem, by simp [hg]⟩
  have hgroups : ∀ t ∈ sortTextures textures,
      nodeGroupsFun (sortNodes nodes) t.group
        = some ((sortNodes nodes).countP (fun nd => nd.g == t.group)) := by
    intro t ht
    rw [nodeGroupsFun_eq]
    have := hpos t ht
    rw [if_neg (by omega)]
  refine ⟨?_, ?_, ?_⟩
  · show matGroupsFold (nodeGroupsFun (sortNodes nodes)) (sortTextures textures) = _
    rw [matGroupsFold]
    have h := matFold_go (nodeGroupsFun (sortNodes nodes))
      (fun t => (sortNodes nodes).countP (fun nd => nd.g == t.group))
      (sortTextures textures) 0 0 [] hgroups
    simpa [builtGroupCounts] using h
  · intro k hk
    have hk' : k < 0 + (builtGroupCounts nodes textures).sum := by omega
    obtain ⟨r, hr, h1, h2⟩ :=
      materialRanges_cover (builtGroupCounts nodes textures) 0 k (Nat.zero_le k) hk'
    refine ⟨r, ⟨hr, h1, h2⟩, ?_⟩
    rintro r' ⟨hr', h1', h2'⟩
    exact materialRanges_unique (builtGroupCounts nodes textures) 0 k r' r hr' hr h1' h2' h1 h2
  · intro r hr
    have := (materialRanges_bounds (builtGroupCounts nodes textures) 0 r hr).2
    omega

/-- A small concrete data set: one "e"-group node and two "m"-group nodes. -/
def demoNodes : List NodeIn :=
  [⟨"a", ⟨0, 0, 0⟩, "e", "A", none⟩,
   ⟨"b", ⟨100, 0, 0⟩, "m", "B", none⟩,
   ⟨"c", ⟨0, 100, 0⟩, "m", "C", none⟩]

/-- Texture descriptors matching `demoNodes`' groups. -/
def demoTextures : List TexIn := [⟨"m"⟩, ⟨"e"⟩]

/-- Witness for `material_partition` on the concrete three-node data set. -/
theorem material_partition_witness :
    (buildData defaultColorsTable demoNodes [] demoTextures).matGroups
      = ((materialRanges 0 (builtGroupCounts demoNodes demoTextures)).enumFrom 0).map
          (fun p => (some p.2.1, some p.2.2, p.1)) ∧
    (∀ k, k < demoNodes.length →
      ∃! r : Nat × Nat, r ∈ materialRanges 0 (builtGroupCounts demoNodes demoTextures)
        ∧ r.1 ≤ k ∧ k < r.1 + r.2) ∧
    (∀ r ∈ materialRanges 0 (builtGroupCounts demoNodes demoTextures),
      r.1 + r.2 ≤ demoNodes.length) :=
  material_partition defaultColorsTable demoNodes [] demoTextures
    (by decide) (by decide) (by decide)

/-! ## Selection and hover state machine

The mutable pieces touched by `select` / `setSpriteColor` /
`setConnectionsColor`: the node color buffer (one `Color3` per sprite index),
the edge color buffer (one `Color3` per endpoint color slot, i.e. per three
consecutive `Uint8` array entries — every write in the source is slot
aligned), the `selected` list, the `hoverNode` variable, the `select` events
dispatched on the container and the camera-framing requests issued by
`selectBy`.  The `needsUpdate` dirty flag carries no information about colors
and is omitted. -/

structure ViewerState where
  nodeColor : Nat → Color3
  lineColor : Nat → Color3
  selected : List Nat
  hoverNode : Option Nat
  events : List (List (Option NodeRec))
  focusRequests : List (List Nat)

/-- Body of `node.connections.from.forEach(...)` in `setConnectionsColor`:
write the start color into slot `conn.index` and the end color into slot
`conn.index + 1` (array positions `conn.index*3 + 0..5`). -/
def connFromStep (pal : Palette) (spriteNum : Nat) (color : Option Color3)
    (acc : ViewerState) (conn : ConnRec) : ViewerState :=
  let cS := color.getD (if spriteNum ∈ acc.selected
    then pal.connectionSelectColor else pal.connectionStartColor)
  let cE := color.getD (if spriteNum ∈ acc.selected
    then pal.connectionSelectColor else pal.connectionEndColor)
  { acc with lineColor :=
      Function.update (Function.update acc.lineColor conn.index cS) (conn.index + 1) cE }

/-- Body of `node.connections.to.forEach(...)`: write the start color into
slot `conn.index - 1` (array positions `conn.index*3 - 3..-1`; a write at a
negative position of a typed array is a silent no-op, which only matters for
`conn.index = 0`) and the end color into slot `conn.index`. -/
def connToStep (pal : Palette) (spriteNum : Nat) (color : Option Color3)
    (acc : ViewerState) (conn : ConnRec) : ViewerState :=
  let cS := color.getD (if spriteNum ∈ acc.selected
    then pal.connectionSelectColor else pal.connectionStartColor)
  let cE := color.getD (if spriteNum ∈ acc.selected
    then pal.connectionSelectColor else pal.connectionEndColor)
  let first := if conn.index = 0 then acc.lineColor
    else Function.update acc.lineColor (conn.index - 1) cS
  { acc with lineColor := Function.update first conn.index cE }

/-- `setSpriteColor(spriteNum, color)`: no-op without a node record; with no
explicit color, the resting color is the select color when the sprite is in
`selected`, else the record's base color. -/
def setSpriteColor (pal : Palette) (info : List NodeRec) (st : ViewerState)
    (spriteNum : Nat) (color : Option Color3) : ViewerState :=
  match info[spriteNum]? with
  | none => st
  | some node =>
    let c := color.getD (if spriteNum ∈ st.selected then pal.nodeSelectColor else node.color)
    { st with nodeColor := Function.update st.nodeColor spriteNum c }

/-- `setConnectionsColor(spriteNum, color)`: no-op without a node record,
else repaint both slots of every `from` connection and of every `to`
connection. -/
def setConnectionsColor (pal : Palette) (info : List NodeRec) (st : ViewerState)
    (spriteNum : Nat) (color : Option Color3) : ViewerState :=
  match info[spriteNum]? with
  | none => st
  | some node =>
    node.connsTo.foldl (connToStep pal spriteNum color)
      (node.connsFrom.foldl (connFromStep pal spriteNum color) st)

/-- One iteration of `while (selected.length > 0) { let item = selected.pop();
setSpriteColor(item); setConnectionsColor(item); }`. -/
def restoreStep (pal : Palette) (info : List NodeRec) (st : ViewerState) : ViewerState :=
  match st.selected.getLast? with
  | none => st
  | some item =>
    let st1 := { st with selected := st.selected.dropLast }
    setConnectionsColor pal info (setSpriteColor pal info st1 item none) item none

/-- The whole while-loop, with fuel (each iteration pops one element, so
`st.selected.length` iterations always drain the list). -/
def popRestoreGo (pal : Palette) (info : List NodeRec) : Nat → ViewerState → ViewerState
  | 0, st => st
  | fuel + 1, st =>
    if st.selected.isEmpty then st else popRestoreGo pal info fuel (restoreStep pal info st)

/-- The reset loop of the persistent branch of `select`. -/
def popRestore (pal : Palette) (info : List NodeRec) (st : ViewerState) : ViewerState :=
  popRestoreGo pal info st.selected.length st

/-- The restore phase at the top of `select`: persistent calls drain and
restore `selected`; hover calls restore the previous hover node.  The source
guard is `else if (hoverNode)`: JavaScript truthiness, which is false both
for `undefined` and for hover index `0`. -/
def selectRestorePhase (pal : Palette) (info : List NodeRec) (st : ViewerState)
    (persistent : Bool) : ViewerState :=
  if persistent then popRestore pal info st
  else
    match st.hoverNode with
    | none => st
    | some h =>
      if h = 0 then st
      else setConnectionsColor pal info (setSpriteColor pal info st h none) h none

/-- Body of `items.forEach(id => ...)` in `select`: record the id (append to
`selected`, or overwrite `hoverNode`), then paint the sprite and its
connections with the select or hover colors. -/
def selectPaintStep (pal : Palette) (info : List NodeRec) (persistent : Bool)
    (acc : ViewerState) (id : Nat) : ViewerState :=
  let acc1 := if persistent then { acc with selected := acc.selected ++ [id] }
    else { acc with hoverNode := some id }
  let acc2 := setSpriteColor pal info acc1 id
    (some (if persistent then pal.nodeSelectColor else pal.hoverSelectColor))
  setConnectionsColor pal info acc2 id
    (some (if persistent then pal.connectionSelectColor else pal.hoverConnectionColor))

/-- `select(items, persistent)`: restore phase, paint phase, and — only for
persistent calls — one `select` event carrying `items.map(i => nodeInfo[i])`. -/
def selectFn (pal : Palette) (info : List NodeRec) (st : ViewerState)
    (items : List Nat) (persistent : Bool) : ViewerState :=
  let st1 := selectRestorePhase pal info st persistent
  let st2 := items.foldl (selectPaintStep pal info persistent) st1
  if persistent then { st2 with events := st2.events ++ [items.map (fun i => info[i]?)] }
  else st2

/-- A hover interaction as driven by `onMouseMove`: `select(items, false)`
with `items = [n]` on a node hit and `items = []` on a miss. -/
def hoverFn (pal : Palette) (info : List NodeRec) (st : ViewerState)
    (n : Option Nat) : ViewerState :=
  selectFn pal info st (n.elim [] (fun i => [i])) false

/-! ### State-projection lemmas for the selection machinery -/

theorem foldl_proj_eq {α β : Type} (p : ViewerState → β) (f : ViewerState → α → ViewerState)
    (h : ∀ s a, p (f s a) = p s) :
    ∀ (l : List α) (s : ViewerState), p (l.foldl f s) = p s := by
  intro l
  induction l with
  | nil => intro s; rfl
  | cons a l ih => intro s; rw [List.foldl_cons, ih, h]

@[simp] theorem setSpriteColor_selected (pal : Palette) (info : List NodeRec)
    (st : ViewerState) (n : Nat) (c : Option Color3) :
    (setSpriteColor pal info st n c).selected = st.selected := by
  cases h : info[n]? <;> simp [setSpriteColor, h]

@[simp] theorem setSpriteColor_hoverNode (pal : Palette) (info : List NodeRec)
    (st : ViewerState) (n : Nat) (c : Option Color3) :
    (setSpriteColor pal info st n c).hoverNode = st.hoverNode := by
  cases h : info[n]? <;> simp [setSpriteColor, h]

@[simp] theorem setSpriteColor_events (pal : Palette) (info : List NodeRec)
    (st : ViewerState) (n : Nat) (c : Option Color3) :
    (setSpriteColor pal info st n c).events = st.events := by
  cases h : info[n]? <;> simp [setSpriteColor, h]

@[simp] theorem setSpriteColor_focus (pal : Palette) (info : List NodeRec)
    (st : ViewerState) (n : Nat) (c : Option Color3) :
    (setSpriteColor pal info st n c).focusRequests = st.focusRequests := by
  cases h : info[n]? <;> simp [setSpriteColor, h]

@[simp] theorem setSpriteColor_lineColor (pal : Palette) (info : List NodeRec)
    (st : ViewerState) (n : Nat) (c : Option Color3) :
    (setSpriteColor pal info st n c).lineColor = st.lineColor := by
  cases h : info[n]? <;> simp [setSpriteColor, h]

@[simp] theorem connFromStep_selected (pal : Palette) (n : Nat) (c : Option Color3)
    (acc : ViewerState) (conn : ConnRec) :
    (connFromStep pal n c acc conn).selected = acc.selected := rfl

@[simp] theorem connFromStep_hoverNode (pal : Palette) (n : Nat) (c : Option Color3)
    (acc : ViewerState) (conn : ConnRec) :
    (connFromStep pal n c acc conn).hoverNode = acc.hoverNode := rfl

@[simp] theorem connFromStep_events (pal : Palette) (n : Nat) (c : Option Color3)
    (acc : ViewerState) (conn : ConnRec) :
    (connFromStep pal n c acc conn).events = acc.events := rfl

@[simp] theorem connFromStep_focus (pal : Palette) (n : Nat) (c : Option Color3)
    (acc : ViewerState) (conn : ConnRec) :
    (connFromStep pal n c acc conn).focusRequests = acc.focusRequests := rfl

@[simp] theorem connFromStep_nodeColor (pal : Palette) (n : Nat) (c : Option Color3)
    (acc : ViewerState) (conn : ConnRec) :
    (connFromStep pal n c acc conn).nodeColor = acc.nodeColor := rfl

@[simp] theorem connToStep_selected (pal : Palette) (n : Nat) (c : Option Color3)
    (acc : ViewerState) (conn : ConnRec) :
    (connToStep pal n c acc conn).selected = acc.selected := rfl

@[simp] theorem connToStep_hoverNode (pal : Palette) (n : Nat) (c : Option Color3)
    (acc : ViewerState) (conn : ConnRec) :
    (connToStep pal n c acc conn).hoverNode = acc.hoverNode := rfl

@[simp] theorem connToStep_events (pal : Palette) (n : Nat) (c : Option Color3)
    (acc : ViewerState) (conn : ConnRec) :
    (connToStep pal n c acc conn).events = acc.events := rfl

@[simp] theorem connToStep_focus (pal : Palette) (n : Nat) (c : Option Color3)
    (acc : ViewerState) (conn : ConnRec) :
    (connToStep pal n c acc conn).focusRequests = acc.focusRequests := rfl

@[simp] theorem connToStep_nodeColor (pal : Palette) (n : Nat) (c : Option Color3)
    (acc : ViewerState) (conn : ConnRec) :
    (connToStep pal n c acc conn).nodeColor = acc.nodeColor := rfl

@[simp] theorem setConnectionsColor_selected (pal : Palette) (info : List NodeRec)
    (st : ViewerState) (n : Nat) (c : Option Color3) :
    (setConnectionsColor pal info st n c).selected = st.selected := by
  cases h : info[n]? with
  | none => simp [setConnectionsColor, h]
  | some node =>
    simp only [setConnectionsColor, h]
    rw [foldl_proj_eq ViewerState.selected _ (fun s a => connToStep_selected pal n c s a),
      foldl_proj_eq ViewerState.selected _ (fun s a => connFromStep_selected pal n c s a)]

@[simp] theorem setConnectionsColor_hoverNode (pal : Palette) (info : List NodeRec)
    (st : ViewerState) (n : Nat) (c : Option Color3) :
    (setConnectionsColor pal info st n c).hoverNode = st.hoverNode := by
  cases h : info[n]? with
  | none => simp [setConnectionsColor, h]
  | some node =>
    simp only [setConnectionsColor, h]
    rw [foldl_proj_eq ViewerState.hoverNode _ (fun s a => connToStep_hoverNode pal n c s a),
      foldl_proj_eq ViewerState.hoverNode _ (fun s a => connFromStep_hoverNode pal n c s a)]

@[simp] theorem setConnectionsColor_events (pal : Palette) (info : List NodeRec)
    (st : ViewerState) (n : Nat) (c : Option Color3) :
    (setConnectionsColor pal info st n c).events = st.events := by
  cases h : info[n]? with
  | none => simp [setConnectionsColor, h]
  | some node =>
    simp only [setConnectionsColor, h]
    rw [foldl_proj_eq ViewerState.events _ (fun s a => connToStep_events pal n c s a),
      foldl_proj_eq ViewerState.events _ (fun s a => connFromStep_events pal n c s a)]

@[simp] theorem setConnectionsColor_focus (pal : Palette) (info : List NodeRec)
    (st : ViewerState) (n : Nat) (c : Option Color3) :
    (setConnectionsColor pal info st n c).focusRequests = st.focusRequests := by
  cases h : info[n]? with
  | none => simp [setConnectionsColor, h]
  | some node =>
    simp only [setConnectionsColor, h]
    rw [foldl_proj_eq ViewerState.focusRequests _ (fun s a => connToStep_focus pal n c s a),
      foldl_proj_eq ViewerState.focusRequests _ (fun s a => connFromStep_focus pal n c s a)]

@[simp] theorem setConnectionsColor_nodeColor (pal : Palette) (info : List NodeRec)
    (st : ViewerState) (n : Nat) (c : Option Color3) :
    (setConnectionsColor pal info st n c).nodeColor = st.nodeColor := by
  cases h : info[n]? with
  | none => simp [setConnectionsColor, h]
  | some node =>
    simp only [setConnectionsColor, h]
    rw [foldl_proj_eq ViewerState.nodeColor _ (fun s a => connToStep_nodeColor pal n c s a),
      foldl_proj_eq ViewerState.nodeColor _ (fun s a => connFromStep_nodeColor pal n c s a)]

@[simp] theorem restoreStep_selected (pal : Palette) (info : List NodeRec) (st : ViewerState) :
    (restoreStep pal info st).selected = st.selected.dropLast := by
  cases h : st.selected.getLast? with
  | none =>
    have : st.selected = [] := List.getLast?_eq_none_iff.mp h
    simp [restoreStep, h, this]
  | some item => simp [restoreStep, h]

@[simp] theorem restoreStep_hoverNode (pal : Palette) (info : List NodeRec) (st : ViewerState) :
    (restoreStep pal info st).hoverNode = st.hoverNode := by
  cases h : st.selected.getLast? <;> simp [restoreStep, h]

@[simp] theorem restoreStep_events (pal : Palette) (info : List NodeRec) (st : ViewerState) :
    (restoreStep pal info st).events = st.events := by
  cases h : st.selected.getLast? <;> simp [restoreStep, h]

@[simp] theorem restoreStep_focus (pal : Palette) (info : List NodeRec) (st : ViewerState) :
    (restoreStep pal info st).focusRequests = st.focusRequests := by
  cases h : st.selected.getLast? <;> simp [restoreStep, h]

/-! ### Edge-slot bookkeeping

In a data set built by `setData`, every `from` connection record stores an
even color-slot index `2 i` and every `to` record an odd index `2 i + 1`, so
the resting color of a slot is determined by its parity: even slots are edge
starts, odd slots are edge ends. -/

/-- The resting color of an edge color slot, by parity. -/
def parityRestColor (pal : Palette) (σ : Nat) : Color3 :=
  if σ % 2 = 0 then pal.connectionStartColor else pal.connectionEndColor

/-- The color slots addressed by a node record's connection lists (exactly
the slots `setConnectionsColor` writes for that node). -/
def SlotOf (node : NodeRec) (σ : Nat) : Prop :=
  (∃ c ∈ node.connsFrom, σ = c.index ∨ σ = c.index + 1) ∨
  (∃ c ∈ node.connsTo, (c.index ≠ 0 ∧ σ = c.index - 1) ∨ σ = c.index)

/-- The color slots addressed by the records of any node in `sel`. -/
def TargetSlot (info : List NodeRec) (sel : List Nat) (σ : Nat) : Prop :=
  ∃ n ∈ sel, ∃ node, info[n]? = some node ∧ SlotOf node σ

/-- Parity well-formedness of connection records (`setData` only ever pushes
`2 i` into `connections.from` and `2 i + 1` into `connections.to`). -/
def WfInfo (info : List NodeRec) : Prop :=
  ∀ node ∈ info, (∀ c ∈ node.connsFrom, c.index % 2 = 0) ∧
    (∀ c ∈ node.connsTo, c.index % 2 = 1)

instance : DecidablePred (fun info => WfInfo info) := fun info => by
  unfold WfInfo; infer_instance

theorem connFromFold_line (pal : Palette) (n : Nat) :
    ∀ (l : List ConnRec) (st : ViewerState), (∀ c ∈ l, c.index % 2 = 0) →
      ∀ σ : Nat,
        ((∃ c ∈ l, σ = c.index ∨ σ = c.index + 1) →
          (l.foldl (connFromStep pal n none) st).lineColor σ
            = if n ∈ st.selected then pal.connectionSelectColor else parityRestColor pal σ) ∧
        (¬(∃ c ∈ l, σ = c.index ∨ σ = c.index + 1) →
          (l.foldl (connFromStep pal n none) st).lineColor σ = st.lineColor σ) := by
  intro l
  induction l with
  | nil => intro st _ σ; exact ⟨fun h => by simp at h, fun _ => rfl⟩
  | cons c l ih =>
    intro st hpar σ
    have hc : c.index % 2 = 0 := hpar c (List.mem_cons_self _ _)
    have hpar' : ∀ c' ∈ l, c'.index % 2 = 0 := fun c' h => hpar c' (List.mem_cons_of_mem _ h)
    have hsel : (connFromStep pal n none st c).selected = st.selected := rfl
    have hstep : ∀ τ : Nat, (connFromStep pal n none st c).lineColor τ
        = if τ = c.index + 1 then
            (if n ∈ st.selected then pal.connectionSelectColor else pal.connectionEndColor)
          else if τ = c.index then
            (if n ∈ st.selected then pal.connectionSelectColor else pal.connectionStartColor)
          else st.lineColor τ := by
      intro τ
      simp only [connFromStep, Option.getD_none, Function.update_apply]
    rw [List.foldl_cons]
    obtain ⟨ih1, ih2⟩ := ih (connFromStep pal n none st c) hpar' σ
    rw [hsel] at ih1
    by_cases hl : ∃ c' ∈ l, σ = c'.index ∨ σ = c'.index + 1
    · exact ⟨fun _ => ih1 hl, fun hn => absurd ⟨_, List.mem_cons_of_mem _ hl.choose_spec.1,
        hl.choose_spec.2⟩ hn⟩
    · constructor
      · intro hmem
        rcases hmem with ⟨c', hc', hσ⟩
        rcases List.mem_cons.mp hc' with rfl | hc'mem
        · rw [ih2 hl, hstep]
          rcases hσ with rfl | rfl
          · have hne : ¬(c'.index = c'.index + 1) := by omega
            rw [if_neg hne, if_pos rfl, parityRestColor, if_pos hc]
          · rw [if_pos rfl, parityRestColor,
              if_neg (show ¬((c'.index + 1) % 2 = 0) by omega)]
        · exact absurd ⟨c', hc'mem, hσ⟩ hl
      · intro hn
        have hσc : ¬(σ = c.index ∨ σ = c.index + 1) :=
          fun h => hn ⟨c, List.mem_cons_self _ _, h⟩
        rw [ih2 hl, hstep, if_neg (fun h => hσc (Or.inr h)), if_neg (fun h => hσc (Or.inl h))]

theorem connToFold_line (pal : Palette) (n : Nat) :
    ∀ (l : List ConnRec) (st : ViewerState), (∀ c ∈ l, c.index % 2 = 1) →
      ∀ σ : Nat,
        ((∃ c ∈ l, (c.index ≠ 0 ∧ σ = c.index - 1) ∨ σ = c.index) →
          (l.foldl (connToStep pal n none) st).lineColor σ
            = if n ∈ st.selected then pal.connectionSelectColor else parityRestColor pal σ) ∧
        (¬(∃ c ∈ l, (c.index ≠ 0 ∧ σ = c.index - 1) ∨ σ = c.index) →
          (l.foldl (connToStep pal n none) st).lineColor σ = st.lineColor σ) := by
  intro l
  induction l with
  | nil => intro st _ σ; exact ⟨fun h => by simp at h, fun _ => rfl⟩
  | cons c l ih =>
    intro st hpar σ
    have hc : c.index % 2 = 1 := hpar c (List.mem_cons_self _ _)
    have hc0 : c.index ≠ 0 := by omega
    have hpar' : ∀ c' ∈ l, c'.index % 2 = 1 := fun c' h => hpar c' (List.mem_cons_of_mem _ h)
    have hsel : (connToStep pal n none st c).selected = st.selected := rfl
    have hstep : ∀ τ : Nat, (connToStep pal n none st c).lineColor τ
        = if τ = c.index then
            (if n ∈ st.selected then pal.connectionSelectColor else pal.connectionEndColor)
          else if τ = c.index - 1 then
            (if n ∈ st.selected then pal.connectionSelectColor else pal.connectionStartColor)
          else st.lineColor τ := by
      intro τ
      simp only [connToStep, Option.getD_none, Function.update_apply, if_neg hc0]
    rw [List.foldl_cons]
    obtain ⟨ih1, ih2⟩ := ih (connToStep pal n none st c) hpar' σ
    rw [hsel] at ih1
    by_cases hl : ∃ c' ∈ l, (c'.index ≠ 0 ∧ σ = c'.index - 1) ∨ σ = c'.index
    · exact ⟨fun _ => ih1 hl, fun hn => absurd ⟨_, List.mem_cons_of_mem _ hl.choose_spec.1,
        hl.choose_spec.2⟩ hn⟩
    · constructor
      · intro hmem
        rcases hmem with ⟨c', hc', hσ⟩
        rcases List.mem_cons.mp hc' with rfl | hc'mem
        · rw [ih2 hl, hstep]
          rcases hσ with ⟨_, rfl⟩ | rfl
          · have hne : ¬(c'.index - 1 = c'.index) := by omega
            rw [if_neg hne, if_pos rfl, parityRestColor,
              if_pos (show (c'.index - 1) % 2 = 0 by omega)]
          · rw [if_pos rfl, parityRestColor,
              if_neg (show ¬(c'.index % 2 = 0) by omega)]
        · exact absurd ⟨c', hc'mem, hσ⟩ hl
      · intro hn
        have hσc : ¬((c.index ≠ 0 ∧ σ = c.index - 1) ∨ σ = c.index) :=
          fun h => hn ⟨c, List.mem_cons_self _ _, h⟩
        rw [ih2 hl, hstep, if_neg (fun h => hσc (Or.inr h)),
          if_neg (fun h => hσc (Or.inl ⟨hc0, h⟩))]

theorem setConnectionsColor_none_line (pal : Palette) (info : List NodeRec)
    (st : ViewerState) (n : Nat) (node : NodeRec) (hn : info[n]? = some node)
    (hwfF : ∀ c ∈ node.connsFrom, c.index % 2 = 0)
    (hwfT : ∀ c ∈ node.connsTo, c.index % 2 = 1) :
    ∀ σ : Nat,
      (SlotOf node σ →
        (setConnectionsColor pal info st n none).lineColor σ
          = if n ∈ st.selected then pal.connectionSelectColor else parityRestColor pal σ) ∧
      (¬SlotOf node σ →
        (setConnectionsColor pal info st n none).lineColor σ = st.lineColor σ) := by
  intro σ
  have hunfold : setConnectionsColor pal info st n none
      = node.connsTo.foldl (connToStep pal n none)
          (node.connsFrom.foldl (connFromStep pal n none) st) := by
    rw [setConnectionsColor, hn]
  set stF := node.connsFrom.foldl (connFromStep pal n none) st with hstF
  have hselF : stF.selected = st.selected :=
    foldl_proj_eq ViewerState.selected _ (fun s a => connFromStep_selected pal n none s a)
      node.connsFrom st
  obtain ⟨hf1, hf2⟩ := connFromFold_line pal n node.connsFrom st hwfF σ
  obtain ⟨ht1, ht2⟩ := connToFold_line pal n node.connsTo stF hwfT σ
  rw [hselF] at ht1
  constructor
  · intro hslot
    rw [hunfold]
    rcases hslot with hfrom | hto
    · by_cases hto' : ∃ c ∈ node.connsTo, (c.index ≠ 0 ∧ σ = c.index - 1) ∨ σ = c.index
      · exact ht1 hto'
      · rw [ht2 hto']
        exact hf1 hfrom
    · exact ht1 hto
  · intro hslot
    rw [hunfold, ht2 (fun h => hslot (Or.inr h))]
    exact hf2 (fun h => hslot (Or.inl h))

theorem setSpriteColor_of_none (pal : Palette) (info : List NodeRec) (st : ViewerState)
    (n : Nat) (c : Option Color3) (h : info[n]? = none) :
    setSpriteColor pal info st n c = st := by
  simp [setSpriteColor, h]

theorem setSpriteColor_nodeColor_of_some (pal : Palette) (info : List NodeRec)
    (st : ViewerState) (n : Nat) (c : Option Color3) (node : NodeRec)
    (h : info[n]? = some node) :
    (setSpriteColor pal info st n c).nodeColor
      = Function.update st.nodeColor n
          (c.getD (if n ∈ st.selected then pal.nodeSelectColor else node.color)) := by
  simp [setSpriteColor, h]

theorem setConnectionsColor_of_none (pal : Palette) (info : List NodeRec) (st : ViewerState)
    (n : Nat) (c : Option Color3) (h : info[n]? = none) :
    setConnectionsColor pal info st n c = st := by
  simp [setConnectionsColor, h]

/-! ### The restore loop of persistent `select` -/

theorem popRestoreGo_hoverNode (pal : Palette) (info : List NodeRec) :
    ∀ (fuel : Nat) (st : ViewerState),
      (popRestoreGo pal info fuel st).hoverNode = st.hoverNode := by
  intro fuel
  induction fuel with
  | zero => intro st; rfl
  | succ fuel ih =>
    intro st
    rw [popRestoreGo]
    by_cases h : st.selected.isEmpty
    · rw [if_pos h]
    · rw [if_neg h, ih, restoreStep_hoverNode]

theorem popRestoreGo_events (pal : Palette) (info : List NodeRec) :
    ∀ (fuel : Nat) (st : ViewerState),
      (popRestoreGo pal info fuel st).events = st.events := by
  intro fuel
  induction fuel with
  | zero => intro st; rfl
  | succ fuel ih =>
    intro st
    rw [popRestoreGo]
    by_cases h : st.selected.isEmpty
    · rw [if_pos h]
    · rw [if_neg h, ih, restoreStep_events]

theorem popRestoreGo_focus (pal : Palette) (info : List NodeRec) :
    ∀ (fuel : Nat) (st : ViewerState),
      (popRestoreGo pal info fuel st).focusRequests = st.focusRequests := by
  intro fuel
  induction fuel with
  | zero => intro st; rfl
  | succ fuel ih =>
    intro st
    rw [popRestoreGo]
    by_cases h : st.selected.isEmpty
    · rw [if_pos h]
    · rw [if_neg h, ih, restoreStep_focus]

theorem popRestoreGo_selected (pal : Palette) (info : List NodeRec) :
    ∀ (fuel : Nat) (st : ViewerState), st.selected.length ≤ fuel →
      (popRestoreGo pal info fuel st).selected = [] := by
  intro fuel
  induction fuel with
  | zero =>
    intro st h
    show st.selected = []
    exact List.length_eq_zero.mp (by omega)
  | succ fuel ih =>
    intro st h
    rw [popRestoreGo]
    by_cases hE : st.selected.isEmpty
    · rw [if_pos hE]; exact List.isEmpty_iff.mp hE
    · rw [if_neg hE]
      apply ih
      rw [restoreStep_selected, List.length_dropLast]
      have : st.selected ≠ [] := fun hh => hE (List.isEmpty_iff.mpr hh)
      have : 0 < st.selected.length := List.length_pos.mpr this
      omega

/-- The selection decomposes as `dropLast ++ [last]` when nonempty. -/
theorem selected_decomp (st : ViewerState) (x : Nat)
    (h : st.selected.getLast? = some x) :
    st.selected = st.selected.dropLast ++ [x] := by
  obtain ⟨ys, hys⟩ := List.getLast?_eq_some_iff.mp h
  rw [hys, List.dropLast_concat]

theorem restoreStep_nodeColor (pal : Palette) (info : List NodeRec) (st : ViewerState)
    (x : Nat) (hx : st.selected.getLast? = some x) :
    ((∀ node, info[x]? = some node →
        (restoreStep pal info st).nodeColor
          = Function.update st.nodeColor x
              (if x ∈ st.selected.dropLast then pal.nodeSelectColor else node.color)) ∧
      (info[x]? = none → (restoreStep pal info st).nodeColor = st.nodeColor)) := by
  constructor
  · intro node hnode
    simp only [restoreStep, hx]
    rw [setConnectionsColor_nodeColor,
      setSpriteColor_nodeColor_of_some pal info _ x none node hnode]
    rfl
  · intro hnone
    simp only [restoreStep, hx]
    rw [setConnectionsColor_of_none pal info _ x none hnone,
      setSpriteColor_of_none pal info _ x none hnone]

theorem popRestoreGo_nodeColor (pal : Palette) (info : List NodeRec) :
    ∀ (fuel : Nat) (st : ViewerState), st.selected.length ≤ fuel →
      ∀ ν : Nat,
        (ν ∈ st.selected →
          (∀ node, info[ν]? = some node →
            (popRestoreGo pal info fuel st).nodeColor ν = node.color) ∧
          (info[ν]? = none →
            (popRestoreGo pal info fuel st).nodeColor ν = st.nodeColor ν)) ∧
        (ν ∉ st.selected →
          (popRestoreGo pal info fuel st).nodeColor ν = st.nodeColor ν) := by
  intro fuel
  induction fuel with
  | zero =>
    intro st h ν
    have hnil : st.selected = [] := List.length_eq_zero.mp (by omega)
    exact ⟨fun hmem => absurd hmem (by simp [hnil]), fun _ => rfl⟩
  | succ fuel ih =>
    intro st h ν
    rw [popRestoreGo]
    by_cases hE : st.selected.isEmpty
    · have hnil : st.selected = [] := List.isEmpty_iff.mp hE
      rw [if_pos hE]
      exact ⟨fun hmem => absurd hmem (by simp [hnil]), fun _ => rfl⟩
    · rw [if_neg hE]
      have hne : st.selected ≠ [] := fun hh => hE (List.isEmpty_iff.mpr hh)
      obtain ⟨x, hx⟩ := Option.ne_none_iff_exists'.mp
        (fun hh : st.selected.getLast? = none => hne (List.getLast?_eq_none_iff.mp hh))
      have hdecomp := selected_decomp st x hx
      have hlen : (restoreStep pal info st).selected.length ≤ fuel := by
        rw [restoreStep_selected, List.length_dropLast]
        have : 0 < st.selected.length := List.length_pos.mpr hne
        omega
      have hsel' : (restoreStep pal info st).selected = st.selected.dropLast :=
        restoreStep_selected pal info st
      obtain ⟨ihMem, ihNot⟩ := ih (restoreStep pal info st) hlen ν
      rw [hsel'] at ihMem ihNot
      have hmemIff : ν ∈ st.selected ↔ ν ∈ st.selected.dropLast ∨ ν = x := by
        conv_lhs => rw [hdecomp]
        simp
      obtain ⟨hrcS, hrcN⟩ := restoreStep_nodeColor pal info st x hx
      constructor
      · intro hmem
        constructor
        · intro node hnode
          rcases hmemIff.mp hmem with hD | rfl
          · exact (ihMem hD).1 node hnode
          · by_cases hxD : ν ∈ st.selected.dropLast
            · exact (ihMem hxD).1 node hnode
            · rw [ihNot hxD, hrcS node hnode, Function.update_apply, if_pos rfl,
                if_neg hxD]
        · intro hnone
          rcases hmemIff.mp hmem with hD | rfl
          · rw [(ihMem hD).2 hnone]
            cases hrec : info[x]? with
            | none => rw [hrcN hrec]
            | some node =>
              rw [hrcS node hrec, Function.update_apply,
                if_neg (fun hh : ν = x => by rw [hh] at hnone; rw [hnone] at hrec; cases hrec)]
          · by_cases hxD : ν ∈ st.selected.dropLast
            · rw [(ihMem hxD).2 hnone]
              rw [hrcN hnone]
            · rw [ihNot hxD, hrcN hnone]
      · intro hnot
        have hnD : ν ∉ st.selected.dropLast := fun hh => hnot (hmemIff.mpr (Or.inl hh))
        have hnx : ν ≠ x := fun hh => hnot (hmemIff.mpr (Or.inr hh))
        rw [ihNot hnD]
        cases hrec : info[x]? with
        | none => rw [hrcN hrec]
        | some node => rw [hrcS node hrec, Function.update_apply, if_neg hnx]

theorem targetSlot_append (info : List NodeRec) (D : List Nat) (x : Nat) (σ : Nat) :
    TargetSlot info (D ++ [x]) σ
      ↔ TargetSlot info D σ ∨ ∃ node, info[x]? = some node ∧ SlotOf node σ := by
  constructor
  · rintro ⟨n, hn, node, hrec, hslot⟩
    rcases List.mem_append.mp hn with hD | hx1
    · exact Or.inl ⟨n, hD, node, hrec, hslot⟩
    · have hnx : n = x := List.mem_singleton.mp hx1
      subst hnx
      exact Or.inr ⟨node, hrec, hslot⟩
  · rintro (⟨n, hD, node, hrec, hslot⟩ | ⟨node, hrec, hslot⟩)
    · exact ⟨n, List.mem_append.mpr (Or.inl hD), node, hrec, hslot⟩
    · exact ⟨x, List.mem_append.mpr (Or.inr (List.mem_singleton.mpr rfl)), node, hrec, hslot⟩

theorem restoreStep_lineColor (pal : Palette) (info : List NodeRec) (st : ViewerState)
    (x : Nat) (hx : st.selected.getLast? = some x) :
    (∀ node, info[x]? = some node →
      (∀ c ∈ node.connsFrom, c.index % 2 = 0) →
      (∀ c ∈ node.connsTo, c.index % 2 = 1) →
      ∀ σ : Nat,
        (SlotOf node σ → (restoreStep pal info st).lineColor σ
          = if x ∈ st.selected.dropLast then pal.connectionSelectColor
            else parityRestColor pal σ) ∧
        (¬SlotOf node σ → (restoreStep pal info st).lineColor σ = st.lineColor σ)) ∧
    (info[x]? = none → (restoreStep pal info st).lineColor = st.lineColor) := by
  constructor
  · intro node hnode hwfF hwfT σ
    simp only [restoreStep, hx]
    have hline := setConnectionsColor_none_line pal info
      (setSpriteColor pal info
        { st with selected := st.selected.dropLast } x none) x node hnode hwfF hwfT σ
    rw [setSpriteColor_selected] at hline
    rw [setSpriteColor_lineColor] at hline
    exact hline
  · intro hnone
    simp only [restoreStep, hx]
    rw [setConnectionsColor_of_none pal info _ x none hnone,
      setSpriteColor_of_none pal info _ x none hnone]

theorem popRestoreGo_lineColor (pal : Palette) (info : List NodeRec) (hwf : WfInfo info) :
    ∀ (fuel : Nat) (st : ViewerState), st.selected.length ≤ fuel →
      ∀ σ : Nat,
        (TargetSlot info st.selected σ →
          (popRestoreGo pal info fuel st).lineColor σ = parityRestColor pal σ) ∧
        (¬TargetSlot info st.selected σ →
          (popRestoreGo pal info fuel st).lineColor σ = st.lineColor σ) := by
  intro fuel
  induction fuel with
  | zero =>
    intro st h σ
    have hnil : st.selected = [] := List.length_eq_zero.mp (by omega)
    refine ⟨fun htgt => ?_, fun _ => rfl⟩
    obtain ⟨n, hn, _⟩ := htgt
    rw [hnil] at hn
    exact absurd hn (List.not_mem_nil n)
  | succ fuel ih =>
    intro st h σ
    rw [popRestoreGo]
    by_cases hE : st.selected.isEmpty
    · have hnil : st.selected = [] := List.isEmpty_iff.mp hE
      rw [if_pos hE]
      refine ⟨fun htgt => ?_, fun _ => rfl⟩
      obtain ⟨n, hn, _⟩ := htgt
      rw [hnil] at hn
      exact absurd hn (List.not_mem_nil n)
    · rw [if_neg hE]
      have hne : st.selected ≠ [] := fun hh => hE (List.isEmpty_iff.mpr hh)
      obtain ⟨x, hx⟩ := Option.ne_none_iff_exists'.mp
        (fun hh : st.selected.getLast? = none => hne (List.getLast?_eq_none_iff.mp hh))
      have hdecomp := selected_decomp st x hx
      have hlen : (restoreStep pal info st).selected.length ≤ fuel := by
        rw [restoreStep_selected, List.length_dropLast]
        have : 0 < st.selected.length := List.length_pos.mpr hne
        omega
      obtain ⟨ihT, ihN⟩ := ih (restoreStep pal info st) hlen σ
      rw [restoreStep_selected] at ihT ihN
      obtain ⟨hrcS, hrcN⟩ := restoreStep_lineColor pal info st x hx
      have hxmem : x ∈ st.selected := by
        rw [hdecomp]; exact List.mem_append.mpr (Or.inr (List.mem_singleton.mpr rfl))
      have hsplit : TargetSlot info st.selected σ
          ↔ TargetSlot info st.selected.dropLast σ
            ∨ ∃ node, info[x]? = some node ∧ SlotOf node σ := by
        conv_lhs => rw [hdecomp]
        exact targetSlot_append info st.selected.dropLast x σ
      constructor
      · intro htgt
        rcases hsplit.mp htgt with hTD | ⟨node, hrec, hslot⟩
        · exact ihT hTD
        · by_cases hTD : TargetSlot info st.selected.dropLast σ
          · exact ihT hTD
          · have hxD : x ∉ st.selected.dropLast := by
              intro hxin
              exact hTD ⟨x, hxin, node, hrec, hslot⟩
            have hnodemem : node ∈ info := List.getElem?_mem hrec
            have hwfn := hwf node hnodemem
            rw [ihN hTD, (hrcS node hrec hwfn.1 hwfn.2 σ).1 hslot, if_neg hxD]
      · intro htgt
        have hTD : ¬TargetSlot info st.selected.dropLast σ :=
          fun hh => htgt (hsplit.mpr (Or.inl hh))
        rw [ihN hTD]
        cases hrec : info[x]? with
        | none => rw [hrcN hrec]
        | some node =>
          have hnodemem : node ∈ info := List.getElem?_mem hrec
          have hwfn := hwf node hnodemem
          have hslot : ¬SlotOf node σ := fun hs => htgt ⟨x, hxmem, node, hrec, hs⟩
          exact (hrcS node hrec hwfn.1 hwfn.2 σ).2 hslot

/-! ### The paint phase of `select` and the C2 theorem -/

theorem selectRestorePhase_true (pal : Palette) (info : List NodeRec) (st : ViewerState) :
    selectRestorePhase pal info st true = popRestore pal info st := rfl

@[simp] theorem selectPaintStep_selected_true (pal : Palette) (info : List NodeRec)
    (acc : ViewerState) (id : Nat) :
    (selectPaintStep pal info true acc id).selected = acc.selected ++ [id] := by
  simp [selectPaintStep]

@[simp] theorem selectPaintStep_events (pal : Palette) (info : List NodeRec) (persistent : Bool)
    (acc : ViewerState) (id : Nat) :
    (selectPaintStep pal info persistent acc id).events = acc.events := by
  cases persistent <;> simp [selectPaintStep]

@[simp] theorem selectPaintStep_focus (pal : Palette) (info : List NodeRec) (persistent : Bool)
    (acc : ViewerState) (id : Nat) :
    (selectPaintStep pal info persistent acc id).focusRequests = acc.focusRequests := by
  cases persistent <;> simp [selectPaintStep]

@[simp] theorem selectPaintStep_hoverNode_true (pal : Palette) (info : List NodeRec)
    (acc : ViewerState) (id : Nat) :
    (selectPaintStep pal info true acc id).hoverNode = acc.hoverNode := by
  simp [selectPaintStep]

@[simp] theorem selectPaintStep_selected_false (pal : Palette) (info : List NodeRec)
    (acc : ViewerState) (id : Nat) :
    (selectPaintStep pal info false acc id).selected = acc.selected := by
  simp [selectPaintStep]

@[simp] theorem selectPaintStep_hoverNode_false (pal : Palette) (info : List NodeRec)
    (acc : ViewerState) (id : Nat) :
    (selectPaintStep pal info false acc id).hoverNode = some id := by
  simp [selectPaintStep]

theorem paintFold_selected_true (pal : Palette) (info : List NodeRec) :
    ∀ (S : List Nat) (acc : ViewerState),
      (S.foldl (selectPaintStep pal info true) acc).selected = acc.selected ++ S := by
  intro S
  induction S with
  | nil => intro acc; simp
  | cons a S ih =>
    intro acc
    rw [List.foldl_cons, ih, selectPaintStep_selected_true]
    simp

/-- C2: in persistent (replace) mode, `select(S)` first restores every
previously selected node and its incident edges to resting colors (base node
color; start/end edge colors — the selection is empty while the while-loop
restores, so the resting colors apply), then leaves `selected` equal to
exactly `S` in the caller's order, dispatches exactly one `select` event
carrying the node records of `S` (also when `S` is empty), and leaves the
hover state alone. -/
theorem select_replace (pal : Palette) (info : List NodeRec) (hwf : WfInfo info)
    (st : ViewerState) (S : List Nat) :
    (∀ n ∈ st.selected, ∀ node, info[n]? = some node →
      (selectRestorePhase pal info st true).nodeColor n = node.color ∧
      (∀ c ∈ node.connsFrom,
        (selectRestorePhase pal info st true).lineColor c.index
          = pal.connectionStartColor ∧
        (selectRestorePhase pal info st true).lineColor (c.index + 1)
          = pal.connectionEndColor) ∧
      (∀ c ∈ node.connsTo,
        (selectRestorePhase pal info st true).lineColor (c.index - 1)
          = pal.connectionStartColor ∧
        (selectRestorePhase pal info st true).lineColor c.index
          = pal.connectionEndColor)) ∧
    (selectFn pal info st S true).selected = S ∧
    (selectFn pal info st S true).events = st.events ++ [S.map (fun i => info[i]?)] ∧
    (selectFn pal info st S true).hoverNode = st.hoverNode := by
  have hr_selected : (popRestore pal info st).selected = [] :=
    popRestoreGo_selected pal info st.selected.length st (Nat.le_refl _)
  have hfn : selectFn pal info st S true
      = { S.foldl (selectPaintStep pal info true) (popRestore pal info st) with
          events := (S.foldl (selectPaintStep pal info true)
            (popRestore pal info st)).events ++ [S.map (fun i => info[i]?)] } := rfl
  refine ⟨?_, ?_, ?_, ?_⟩
  · intro n hmem node hnode
    rw [selectRestorePhase_true]
    have hnodemem : node ∈ info := List.getElem?_mem hnode
    have hwfn := hwf node hnodemem
    have hNC := (popRestoreGo_nodeColor pal info st.selected.length st (Nat.le_refl _) n).1
      hmem
    have hLC := popRestoreGo_lineColor pal info hwf st.selected.length st (Nat.le_refl _)
    refine ⟨hNC.1 node hnode, ?_, ?_⟩
    · intro c hc
      have hpar := hwfn.1 c hc
      constructor
      · have h1 := (hLC c.index).1 ⟨n, hmem, node, hnode, Or.inl ⟨c, hc, Or.inl rfl⟩⟩
        rw [parityRestColor, if_pos hpar] at h1
        exact h1
      · have h1 := (hLC (c.index + 1)).1 ⟨n, hmem, node, hnode, Or.inl ⟨c, hc, Or.inr rfl⟩⟩
        rw [parityRestColor, if_neg (show ¬((c.index + 1) % 2 = 0) by omega)] at h1
        exact h1
    · intro c hc
      have hpar := hwfn.2 c hc
      constructor
      · have h1 := (hLC (c.index - 1)).1
          ⟨n, hmem, node, hnode, Or.inr ⟨c, hc, Or.inl ⟨by omega, rfl⟩⟩⟩
        rw [parityRestColor, if_pos (show (c.index - 1) % 2 = 0 by omega)] at h1
        exact h1
      · have h1 := (hLC c.index).1 ⟨n, hmem, node, hnode, Or.inr ⟨c, hc, Or.inr rfl⟩⟩
        rw [parityRestColor, if_neg (show ¬(c.index % 2 = 0) by omega)] at h1
        exact h1
  · rw [hfn]
    show (S.foldl (selectPaintStep pal info true) (popRestore pal info st)).selected = S
    rw [paintFold_selected_true, hr_selected]
    simp
  · rw [hfn]
    show (S.foldl (selectPaintStep pal info true) (popRestore pal info st)).events
        ++ [S.map (fun i => info[i]?)] = st.events ++ [S.map (fun i => info[i]?)]
    rw [foldl_proj_eq ViewerState.events _
      (fun s a => selectPaintStep_events pal info true s a) S (popRestore pal info st),
      show (popRestore pal info st).events = st.events from
        popRestoreGo_events pal info st.selected.length st]
  · rw [hfn]
    show (S.foldl (selectPaintStep pal info true) (popRestore pal info st)).hoverNode
        = st.hoverNode
    rw [foldl_proj_eq ViewerState.hoverNode _
      (fun s a => selectPaintStep_hoverNode_true pal info s a) S (popRestore pal info st),
      show (popRestore pal info st).hoverNode = st.hoverNode from
        popRestoreGo_hoverNode pal info st.selected.length st]

/-- A built two-node record list with one edge `a → b` (edge color slots 0
and 1, so node `a` stores `to`-slot 1 and node `b` stores `from`-slot 0). -/
def demoInfo : List NodeRec :=
  [⟨"a", "A", ⟨0, 0, 0⟩, ⟨10, 20, 30⟩, [⟨1, "b"⟩], [], 0, "g"⟩,
   ⟨"b", "B", ⟨100, 0, 0⟩, ⟨40, 50, 60⟩, [], [⟨0, "a"⟩], 1, "g"⟩]

/-- A concrete viewer state with node 1 persistently selected. -/
def demoState : ViewerState :=
  { nodeColor := fun _ => ⟨9, 9, 9⟩
    lineColor := fun _ => ⟨8, 8, 8⟩
    selected := [1]
    hoverNode := none
    events := []
    focusRequests := [] }

/-- Witness for `select_replace`: replacing the selection `[1]` by `[0]` on
the concrete two-node data set. -/
theorem select_replace_witness :
    (∀ n ∈ demoState.selected, ∀ node, demoInfo[n]? = some node →
      (selectRestorePhase defaultColorsTable demoInfo demoState true).nodeColor n
        = node.color ∧
      (∀ c ∈ node.connsFrom,
        (selectRestorePhase defaultColorsTable demoInfo demoState true).lineColor c.index
          = defaultColorsTable.connectionStartColor ∧
        (selectRestorePhase defaultColorsTable demoInfo demoState true).lineColor
          (c.index + 1) = defaultColorsTable.connectionEndColor) ∧
      (∀ c ∈ node.connsTo,
        (selectRestorePhase defaultColorsTable demoInfo demoState true).lineColor
          (c.index - 1) = defaultColorsTable.connectionStartColor ∧
        (selectRestorePhase defaultColorsTable demoInfo demoState true).lineColor c.index
          = defaultColorsTable.connectionEndColor)) ∧
    (selectFn defaultColorsTable demoInfo demoState [0] true).selected = [0] ∧
    (selectFn defaultColorsTable demoInfo demoState [0] true).events
      = demoState.events ++ [[0].map (fun i => demoInfo[i]?)] ∧
    (selectFn defaultColorsTable demoInfo demoState [0] true).hoverNode
      = demoState.hoverNode :=
  select_replace defaultColorsTable demoInfo (by decide) demoState [0]

/-! ### Hover restore (C4) -/

theorem selectRestorePhase_false_selected (pal : Palette) (info : List NodeRec)
    (st : ViewerState) :
    (selectRestorePhase pal info st false).selected = st.selected := by
  cases hh : st.hoverNode with
  | none => simp [selectRestorePhase, hh]
  | some h => by_cases h0 : h = 0 <;> simp [selectRestorePhase, hh, h0]

theorem selectRestorePhase_false_events (pal : Palette) (info : List NodeRec)
    (st : ViewerState) :
    (selectRestorePhase pal info st false).events = st.events := by
  cases hh : st.hoverNode with
  | none => simp [selectRestorePhase, hh]
  | some h => by_cases h0 : h = 0 <;> simp [selectRestorePhase, hh, h0]

theorem selectRestorePhase_false_hoverNode (pal : Palette) (info : List NodeRec)
    (st : ViewerState) :
    (selectRestorePhase pal info st false).hoverNode = st.hoverNode := by
  cases hh : st.hoverNode with
  | none => simp [selectRestorePhase, hh]
  | some h => by_cases h0 : h = 0 <;> simp [selectRestorePhase, hh, h0]

/-- Hovering a node with nonzero index and then hovering nothing restores the
node to its resting color (the select color when it is persistently selected,
else its base color) and its incident edges to their resting colors (the
connection-select colors when selected, else the start/end colors); no event
is dispatched and the persistent selection is untouched.  The nonzero
hypothesis mirrors the `else if (hoverNode)` truthiness guard. -/
theorem hover_restore_nonzero (pal : Palette) (info : List NodeRec) (hwf : WfInfo info)
    (st : ViewerState) (n : Nat) (hn0 : n ≠ 0) (node : NodeRec)
    (hnode : info[n]? = some node) :
    (hoverFn pal info (hoverFn pal info st (some n)) none).nodeColor n
      = (if n ∈ st.selected then pal.nodeSelectColor else node.color) ∧
    (∀ c ∈ node.connsFrom,
      (hoverFn pal info (hoverFn pal info st (some n)) none).lineColor c.index
        = (if n ∈ st.selected then pal.connectionSelectColor
           else pal.connectionStartColor) ∧
      (hoverFn pal info (hoverFn pal info st (some n)) none).lineColor (c.index + 1)
        = (if n ∈ st.selected then pal.connectionSelectColor
           else pal.connectionEndColor)) ∧
    (∀ c ∈ node.connsTo,
      (hoverFn pal info (hoverFn pal info st (some n)) none).lineColor (c.index - 1)
        = (if n ∈ st.selected then pal.connectionSelectColor
           else pal.connectionStartColor) ∧
      (hoverFn pal info (hoverFn pal info st (some n)) none).lineColor c.index
        = (if n ∈ st.selected then pal.connectionSelectColor
           else pal.connectionEndColor)) ∧
    (hoverFn pal info (hoverFn pal info st (some n)) none).events = st.events ∧
    (hoverFn pal info (hoverFn pal info st (some n)) none).selected = st.selected := by
  have hnodemem : node ∈ info := List.getElem?_mem hnode
  have hwfn := hwf node hnodemem
  have hs1 : hoverFn pal info st (some n)
      = selectPaintStep pal info false (selectRestorePhase pal info st false) n := rfl
  have hs1sel : (hoverFn pal info st (some n)).selected = st.selected := by
    rw [hs1, selectPaintStep_selected_false, selectRestorePhase_false_selected]
  have hs1ev : (hoverFn pal info st (some n)).events = st.events := by
    rw [hs1, selectPaintStep_events, selectRestorePhase_false_events]
  have hs1h : (hoverFn pal info st (some n)).hoverNode = some n := by
    rw [hs1, selectPaintStep_hoverNode_false]
  have ht : hoverFn pal info (hoverFn pal info st (some n)) none
      = setConnectionsColor pal info
          (setSpriteColor pal info (hoverFn pal info st (some n)) n none) n none := by
    show selectRestorePhase pal info (hoverFn pal info st (some n)) false = _
    rw [selectRestorePhase]
    simp only [Bool.false_eq_true, if_false, hs1h, hn0]
  have hmid_sel : (setSpriteColor pal info (hoverFn pal info st (some n)) n none).selected
      = st.selected := by rw [setSpriteColor_selected, hs1sel]
  have hline := setConnectionsColor_none_line pal info
    (setSpriteColor pal info (hoverFn pal info st (some n)) n none) n node hnode
    hwfn.1 hwfn.2
  refine ⟨?_, ?_, ?_, ?_, ?_⟩
  · rw [ht, setConnectionsColor_nodeColor,
      setSpriteColor_nodeColor_of_some pal info _ n none node hnode,
      Function.update_apply, if_pos rfl, hs1sel]
    rfl
  · intro c hc
    have hpar := hwfn.1 c hc
    constructor
    · rw [ht, (hline c.index).1 (Or.inl ⟨c, hc, Or.inl rfl⟩), hmid_sel,
        parityRestColor, if_pos hpar]
    · rw [ht, (hline (c.index + 1)).1 (Or.inl ⟨c, hc, Or.inr rfl⟩), hmid_sel,
        parityRestColor, if_neg (show ¬((c.index + 1) % 2 = 0) by omega)]
  · intro c hc
    have hpar := hwfn.2 c hc
    constructor
    · rw [ht, (hline (c.index - 1)).1 (Or.inr ⟨c, hc, Or.inl ⟨by omega, rfl⟩⟩), hmid_sel,
        parityRestColor, if_pos (show (c.index - 1) % 2 = 0 by omega)]
    · rw [ht, (hline c.index).1 (Or.inr ⟨c, hc, Or.inr rfl⟩), hmid_sel,
        parityRestColor, if_neg (show ¬(c.index % 2 = 0) by omega)]
  · rw [ht, setConnectionsColor_events, setSpriteColor_events, hs1ev]
  · rw [ht, setConnectionsColor_selected, setSpriteColor_selected, hs1sel]

/-- A concrete state whose colors are all at their resting values, nothing
selected and nothing hovered. -/
def demoResting : ViewerState :=
  { nodeColor := fun i => if i = 0 then ⟨10, 20, 30⟩ else ⟨40, 50, 60⟩
    lineColor := fun σ => parityRestColor defaultColorsTable σ
    selected := []
    hoverNode := none
    events := []
    focusRequests := [] }

/-- C4 failing input: hovering node index 0 and then hovering nothing leaves
node 0 painted with the hover color (and its edge slots with the hover
connection color) instead of restoring the resting colors: the restore guard
`else if (hoverNode)` treats hover index 0 as falsy. -/
theorem hover_zero_not_restored :
    (hoverFn defaultColorsTable demoInfo
        (hoverFn defaultColorsTable demoInfo demoResting (some 0)) none).nodeColor 0
      = defaultColorsTable.hoverSelectColor ∧
    defaultColorsTable.hoverSelectColor ≠ demoResting.nodeColor 0 ∧
    (hoverFn defaultColorsTable demoInfo
        (hoverFn defaultColorsTable demoInfo demoResting (some 0)) none).lineColor 0
      = defaultColorsTable.hoverConnectionColor ∧
    defaultColorsTable.hoverConnectionColor ≠ parityRestColor defaultColorsTable 0 := by
  refine ⟨by decide, by decide, by decide, by decide⟩

/-! ### `selectBy` (C5)

`selectBy(filter)` filters `nodeInfo` by `filter[key].includes(v[key])`.  The
string-valued attributes of a `nodeInfo` record are `id`, `n` (the display
name) and `group`; any other key reads `undefined` (or a non-string field)
and can never equal a string filter value, hence `attrOf` returns `none` for
it. -/

def attrOf (rec : NodeRec) (key : String) : Option String :=
  if key = "id" then some rec.id
  else if key = "n" then some rec.name
  else if key = "group" then some rec.group
  else none

/-- `filter[key].includes(v[key])` for at least one filter key. -/
def matchesFilter (filter : List (String × List String)) (rec : NodeRec) : Bool :=
  filter.any (fun kv =>
    match attrOf rec kv.1 with
    | some v => kv.2.contains v
    | none => false)

/-- `selectBy`: collect the indices of the matching records, `select` them
persistently, then request camera framing on the same list
(`focusOnItems(items)`; the framing geometry is not modelled here — the
request itself is logged). -/
def selectByFn (pal : Palette) (info : List NodeRec) (st : ViewerState)
    (filter : List (String × List String)) : ViewerState :=
  let items := (info.filter (fun v => matchesFilter filter v)).map (fun i => i.index)
  let st1 := selectFn pal info st items true
  { st1 with focusRequests := st1.focusRequests ++ [items] }

/-- A graph with two nodes of group `"m"` (indices 0 and 1) and three others,
as built records. -/
def fiveInfo : List NodeRec :=
  [⟨"a", "A", ⟨0, 0, 0⟩, ⟨1, 1, 1⟩, [], [], 0, "m"⟩,
   ⟨"b", "B", ⟨1, 0, 0⟩, ⟨1, 1, 1⟩, [], [], 1, "m"⟩,
   ⟨"c", "C", ⟨2, 0, 0⟩, ⟨1, 1, 1⟩, [], [], 2, "x"⟩,
   ⟨"d", "D", ⟨3, 0, 0⟩, ⟨1, 1, 1⟩, [], [], 3, "y"⟩,
   ⟨"e", "E", ⟨4, 0, 0⟩, ⟨1, 1, 1⟩, [], [], 4, "z"⟩]

/-- An all-resting state over `fiveInfo`. -/
def fiveState : ViewerState :=
  { nodeColor := fun _ => ⟨1, 1, 1⟩
    lineColor := fun _ => ⟨0, 0, 0⟩
    selected := []
    hoverNode := none
    events := []
    focusRequests := [] }

/-- C5 counterexample: `selectBy({g: ["m"]})` selects nothing, because the
node records store the group attribute under the key `group`, not `g` —
`v["g"]` is `undefined` for every record — even though the graph has exactly
two group-`"m"` nodes, at indices 0 and 1. -/
theorem selectBy_g_key_selects_nothing :
    (selectByFn defaultColorsTable fiveInfo fiveState [("g", ["m"])]).selected = [] ∧
    (fiveInfo.filter (fun v => v.group == "m")).map (fun i => i.index) = [0, 1] ∧
    ([] : List Nat) ≠ [0, 1] := by
  refine ⟨by decide, by decide, by decide⟩

/-- C5 (amended to the attribute keys the records actually carry): for every
filter, `selectBy` selects exactly the indices of the records whose `id`,
`n` or `group` attribute (whichever keys the filter names) equals one of the
accepted values for at least one key, in record order; it fires exactly one
selection event carrying exactly the matching records, and requests camera
framing on the same index list.  In particular `selectBy({group: ["m"]})` on
the five-node graph selects exactly `[0, 1]` with one event carrying those
two records. -/
theorem selectBy_matches_attributes (pal : Palette) (info : List NodeRec)
    (st : ViewerState) (filter : List (String × List String)) :
    ((selectByFn pal info st filter).selected
      = (info.filter (fun v => matchesFilter filter v)).map (fun i => i.index) ∧
    (selectByFn pal info st filter).events
      = st.events ++ [((info.filter (fun v => matchesFilter filter v)).map
          (fun i => i.index)).map (fun i => info[i]?)] ∧
    (selectByFn pal info st filter).focusRequests
      = st.focusRequests ++ [(info.filter (fun v => matchesFilter filter v)).map
          (fun i => i.index)]) ∧
    ((selectByFn defaultColorsTable fiveInfo fiveState [("group", ["m"])]).selected
      = [0, 1] ∧
    (selectByFn defaultColorsTable fiveInfo fiveState [("group", ["m"])]).events
      = [[fiveInfo[0]?, fiveInfo[1]?]]) := by
  have hsel : ∀ (pal' : Palette) (info' : List NodeRec) (st' : ViewerState)
      (filter' : List (String × List String)),
      (selectByFn pal' info' st' filter').selected
        = (info'.filter (fun v => matchesFilter filter' v)).map (fun i => i.index) := by
    intro pal' info' st' filter'
    show ((((info'.filter (fun v => matchesFilter filter' v)).map
        (fun i => i.index)).foldl (selectPaintStep pal' info' true)
        (popRestore pal' info' st')).selected)
      = (info'.filter (fun v => matchesFilter filter' v)).map (fun i => i.index)
    rw [paintFold_selected_true,
      show (popRestore pal' info' st').selected = [] from
        popRestoreGo_selected pal' info' st'.selected.length st' (Nat.le_refl _)]
    simp
  have hev : ∀ (pal' : Palette) (info' : List NodeRec) (st' : ViewerState)
      (filter' : List (String × List String)),
      (selectByFn pal' info' st' filter').events
        = st'.events ++ [((info'.filter (fun v => matchesFilter filter' v)).map
            (fun i => i.index)).map (fun i => info'[i]?)] := by
    intro pal' info' st' filter'
    show ((((info'.filter (fun v => matchesFilter filter' v)).map
        (fun i => i.index)).foldl (selectPaintStep pal' info' true)
        (popRestore pal' info' st')).events
      ++ [((info'.filter (fun v => matchesFilter filter' v)).map
        (fun i => i.index)).map (fun i => info'[i]?)]) = _
    rw [foldl_proj_eq ViewerState.events _
      (fun s a => selectPaintStep_events pal' info' true s a),
      show (popRestore pal' info' st').events = st'.events from
        popRestoreGo_events pal' info' st'.selected.length st']
  refine ⟨⟨hsel pal info st filter, hev pal info st filter, ?_⟩, ?_, ?_⟩
  · show ((((info.filter (fun v => matchesFilter filter v)).map
        (fun i => i.index)).foldl (selectPaintStep pal info true)
        (popRestore pal info st)).focusRequests
      ++ [(info.filter (fun v => matchesFilter filter v)).map (fun i => i.index)])
      = st.focusRequests
        ++ [(info.filter (fun v => matchesFilter filter v)).map (fun i => i.index)]
    rw [foldl_proj_eq ViewerState.focusRequests _
      (fun s a => selectPaintStep_focus pal info true s a),
      show (popRestore pal info st).focusRequests = st.focusRequests from
        popRestoreGo_focus pal info st.selected.length st]
  · rw [hsel]
    decide
  · rw [hev]
    decide

/-! ## Fly-to transition (C6)

Camera pose over `ℚ` (the interpolation arithmetic is plain field
arithmetic; wall-clock times in milliseconds are `ℚ` as well). -/

structure CamState where
  position : Vec3Q
  up : Vec3Q
  ctrlTarget : Vec3Q
deriving DecidableEq, Repr

structure FlyTarget where
  active : Bool
  start : Vec3Q
  startUp : Vec3Q
  endPos : Vec3Q
  target : Vec3Q
  targetUp : Vec3Q
  startTime : ℚ
  runTime : ℚ
deriving DecidableEq, Repr

/-- `setCamera(position, up, target)`: copy the position, and the up vector /
controls target when given. -/
def setCameraQ (position : Vec3Q) (up : Option Vec3Q) (target : Option Vec3Q)
    (cs : CamState) : CamState :=
  { cs with
    position := position
    up := up.getD cs.up
    ctrlTarget := target.getD cs.ctrlTarget }

/-- `setFlyTarget(position, up, target)`: capture the current pose as the
interpolation start, record the wall-clock start time, set `active`. -/
def setFlyTargetQ (ft : FlyTarget) (position up target : Vec3Q) (cs : CamState)
    (now : ℚ) : FlyTarget :=
  { ft with
    active := true
    start := cs.position
    startUp := cs.up
    endPos := position
    target := target
    targetUp := up
    startTime := now }

/-- `a + (b - a) * p`, the componentwise interpolation of `flyUpdate`. -/
def lerpQ (a b p : ℚ) : ℚ := a + (b - a) * p

/-- `flyUpdate()` at wall-clock time `t`: snap to the end pose and clear
`active` once `t >= startTime + runTime`, otherwise interpolate position and
up by `p = (t - startTime) / runTime`. -/
def flyUpdate (ft : FlyTarget) (cs : CamState) (t : ℚ) : FlyTarget × CamState :=
  if ft.startTime + ft.runTime ≤ t then
    ({ ft with active := false }, setCameraQ ft.endPos (some ft.targetUp) (some ft.target) cs)
  else
    let p := (t - ft.startTime) / ft.runTime
    let p_t : Vec3Q := ⟨lerpQ ft.start.x ft.endPos.x p, lerpQ ft.start.y ft.endPos.y p,
      lerpQ ft.start.z ft.endPos.z p⟩
    let p_u : Vec3Q := ⟨lerpQ ft.startUp.x ft.targetUp.x p,
      lerpQ ft.startUp.y ft.targetUp.y p, lerpQ ft.startUp.z ft.targetUp.z p⟩
    (ft, setCameraQ p_t (some p_u) (some ft.target) cs)

/-- C6: while the fly transition is running (`t < startTime + runTime`), one
`flyUpdate` frame sets position and up componentwise to
`start + (end - start) * p` with `p = (t - startTime) / runTime` and keeps
the fly state unchanged; once the elapsed time reaches the duration, the
camera is set exactly to the target position and up vector and the active
flag is cleared. -/
theorem fly_update_linear (ft : FlyTarget) (cs : CamState) (t : ℚ) :
    (t < ft.startTime + ft.runTime →
      (flyUpdate ft cs t).2.position
        = ⟨ft.start.x + (ft.endPos.x - ft.start.x) * ((t - ft.startTime) / ft.runTime),
           ft.start.y + (ft.endPos.y - ft.start.y) * ((t - ft.startTime) / ft.runTime),
           ft.start.z + (ft.endPos.z - ft.start.z) * ((t - ft.startTime) / ft.runTime)⟩ ∧
      (flyUpdate ft cs t).2.up
        = ⟨ft.startUp.x + (ft.targetUp.x - ft.startUp.x) * ((t - ft.startTime) / ft.runTime),
           ft.startUp.y + (ft.targetUp.y - ft.startUp.y) * ((t - ft.startTime) / ft.runTime),
           ft.startUp.z + (ft.targetUp.z - ft.startUp.z) * ((t - ft.startTime) / ft.runTime)⟩ ∧
      (flyUpdate ft cs t).1 = ft) ∧
    (ft.startTime + ft.runTime ≤ t →
      (flyUpdate ft cs t).2.position = ft.endPos ∧
      (flyUpdate ft cs t).2.up = ft.targetUp ∧
      (flyUpdate ft cs t).2.ctrlTarget = ft.target ∧
      (flyUpdate ft cs t).1.active = false) := by
  constructor
  · intro hlt
    have hnot : ¬(ft.startTime + ft.runTime ≤ t) := by exact not_le.mpr hlt
    simp [flyUpdate, hnot, setCameraQ, lerpQ]
  · intro hle
    simp [flyUpdate, hle, setCameraQ]

/-- Witness for `fly_update_linear`: a concrete transition from the origin to
`(100, 200, 300)` over 750 ms, sampled at 300 ms (interpolation) and at
900 ms (snap). -/
theorem fly_update_linear_witness :
    ((300 : ℚ) < 0 + 750 ∧
      (flyUpdate ⟨true, ⟨0, 0, 0⟩, ⟨0, 1, 0⟩, ⟨100, 200, 300⟩, ⟨0, 0, 0⟩, ⟨0, 1, 0⟩, 0, 750⟩
        ⟨⟨0, 0, 0⟩, ⟨0, 1, 0⟩, ⟨0, 0, 0⟩⟩ 300).2.position
        = ⟨0 + (100 - 0) * ((300 - 0) / 750), 0 + (200 - 0) * ((300 - 0) / 750),
           0 + (300 - 0) * ((300 - 0) / 750)⟩) ∧
    ((0 : ℚ) + 750 ≤ 900 ∧
      (flyUpdate ⟨true, ⟨0, 0, 0⟩, ⟨0, 1, 0⟩, ⟨100, 200, 300⟩, ⟨0, 0, 0⟩, ⟨0, 1, 0⟩, 0, 750⟩
        ⟨⟨0, 0, 0⟩, ⟨0, 1, 0⟩, ⟨0, 0, 0⟩⟩ 900).1.active = false) :=
  ⟨⟨by norm_num,
    ((fly_update_linear ⟨true, ⟨0, 0, 0⟩, ⟨0, 1, 0⟩, ⟨100, 200, 300⟩, ⟨0, 0, 0⟩, ⟨0, 1, 0⟩,
      0, 750⟩ ⟨⟨0, 0, 0⟩, ⟨0, 1, 0⟩, ⟨0, 0, 0⟩⟩ 300).1 (by norm_num)).1⟩,
   ⟨by norm_num,
    ((fly_update_linear ⟨true, ⟨0, 0, 0⟩, ⟨0, 1, 0⟩, ⟨100, 200, 300⟩, ⟨0, 0, 0⟩, ⟨0, 1, 0⟩,
      0, 750⟩ ⟨⟨0, 0, 0⟩, ⟨0, 1, 0⟩, ⟨0, 0, 0⟩⟩ 900).2 (by norm_num)).2.2.2⟩⟩

/-! ## Picking (C8)

`pickInScene` restricts the camera viewport to the pixel under the cursor,
renders the index scene into the 1×1 offscreen target, reads back the pixel,
and decodes it.  The render-state bookkeeping is the pair (view offset
active, index target bound). -/

structure PickCtx where
  viewOffsetActive : Bool
  renderTargetIsIndex : Bool
deriving DecidableEq, Repr

/-- JavaScript `ToNumber` of a boolean, as used by the loose `==` chain. -/
def jsBoolToNat (b : Bool) : Nat := if b then 1 else 0

/-- The background test of `pickInScene`:
`((pixelBuffer[2] == pixelBuffer[1]) == pixelBuffer[0]) == 255` with
JavaScript loose equality — each inner comparison yields a boolean that is
coerced to 0 or 1 for the next one. -/
def bgChainCompare (r g b : Nat) : Bool :=
  jsBoolToNat ((jsBoolToNat (b == g)) == r) == 255

/-- `pickInScene`, given the pixel read back from the index target.  The
early `return;` (taken when the background chain comparison matches) leaves
the view offset restricted and the index target bound; the normal paths
restore both before returning. -/
def pickInSceneM (px : Nat × Nat × Nat) : PickCtx × Option (List Nat) :=
  let afterRender : PickCtx := ⟨true, true⟩
  if bgChainCompare px.1 px.2.1 px.2.2 then
    (afterRender, none)
  else
    let id := decodePixel px.1 px.2.1 px.2.2
    let restored : PickCtx := ⟨false, false⟩
    if id == 16777215 then (restored, some []) else (restored, some [id])

/-- C8: the chained background comparison is false for every pixel (a
boolean coerces to 0 or 1, never 255), so the early no-restore return is
never taken and on every actual return path — node hit or background pixel —
the view offset is cleared and the default render target is restored before
`pickInScene` returns. -/
theorem pick_restores_render_state (r g b : Nat) :
    bgChainCompare r g b = false ∧
    (pickInSceneM (r, g, b)).1.viewOffsetActive = false ∧
    (pickInSceneM (r, g, b)).1.renderTargetIsIndex = false := by
  have hchain : bgChainCompare r g b = false := by
    have h : ∀ x : Bool, (jsBoolToNat x == 255) = false := by
      intro x; cases x <;> rfl
    rw [bgChainCompare, h]
  refine ⟨hchain, ?_, ?_⟩ <;>
    · rw [pickInSceneM]
      simp only [hchain, Bool.false_eq_true, if_false]
      cases hid : (decodePixel r g b == 16777215) <;> simp [hid]

/-! ## `toggleNodeType` and the captured initial data (C10) -/

/-- The argument record of `setData`. -/
structure DataSet where
  nodes : List NodeIn
  links : List LinkIn
  textures : List TexIn
  nodeSize : ℚ
deriving DecidableEq, Repr

/-- The viewer-session state relevant to `toggleNodeType`: the once-captured
`initialData`, the `showGenes` flag, and the log of data sets handed to the
rebuild (each `setData` call rebuilds all buffers from its argument). -/
structure SessionState where
  initialData : Option DataSet
  showGenes : Bool
  buildLog : List DataSet
deriving DecidableEq, Repr

/-- `setData`'s capture prologue: `if (!initialData) initialData = {...}`;
the rebuild itself always uses the call's own argument. -/
def setDataS (v : SessionState) (d : DataSet) : SessionState :=
  { initialData := match v.initialData with
      | none => some d
      | some d0 => some d0
    showGenes := v.showGenes
    buildLog := v.buildLog ++ [d] }

/-- The filtered data set of `toggleNodeType`: drop nodes of the given group,
keep only links whose two endpoints survive, drop the group's texture. -/
def filterDataSet (d : DataSet) (nodeType : String) : DataSet :=
  let nodes := d.nodes.filter (fun nd => nd.g != nodeType)
  let nodeIds := nodes.map (fun nd => nd.id)
  { nodes := nodes
    links := d.links.filter (fun l => nodeIds.contains l.s && nodeIds.contains l.t)
    textures := d.textures.filter (fun t => t.group != nodeType)
    nodeSize := d.nodeSize }

/-- `toggleNodeType(nodeType)`: flip `showGenes`, then rebuild from the
captured `initialData` — the full set when re-showing, else the filtered
subset.  `none` models the crash on a never-initialized viewer (destructuring
`null`). -/
def toggleNodeTypeS (v : SessionState) (nodeType : String) : Option SessionState :=
  let sg := !v.showGenes
  match v.initialData with
  | none => none
  | some d0 =>
    if sg then some (setDataS { v with showGenes := sg } d0)
    else some (setDataS { v with showGenes := sg } (filterDataSet d0 nodeType))

/-- A fresh viewer session: no captured data, `showGenes = true`. -/
def initialSession : SessionState :=
  { initialData := none, showGenes := true, buildLog := [] }

theorem setDataS_initial_some (v : SessionState) (d d0 : DataSet)
    (h : v.initialData = some d0) : (setDataS v d).initialData = some d0 := by
  simp [setDataS, h]

theorem foldl_setDataS_initial (d0 : DataSet) :
    ∀ (ds : List DataSet) (v : SessionState), v.initialData = some d0 →
      (ds.foldl setDataS v).initialData = some d0 := by
  intro ds
  induction ds with
  | nil => intro v h; exact h
  | cons d ds ih => intro v h; exact ih _ (setDataS_initial_some v d d0 h)

theorem foldl_setDataS_showGenes :
    ∀ (ds : List DataSet) (v : SessionState),
      (ds.foldl setDataS v).showGenes = v.showGenes := by
  intro ds
  induction ds with
  | nil => intro v; rfl
  | cons d ds ih => intro v; exact ih _

/-- C10: after any first `setData(d1)` and any sequence of later `setData`
calls, `initialData` still holds `d1`; `toggleNodeType(g)` then rebuilds
(i.e. calls `setData`) with the subset of `d1` excluding group-`g` nodes and
the links and texture that depend on them — ignoring every later data set —
and toggling again rebuilds with the full `d1`. -/
theorem toggleNodeType_uses_initialData (d1 : DataSet) (ds : List DataSet) (g : String) :
    (ds.foldl setDataS (setDataS initialSession d1)).initialData = some d1 ∧
    toggleNodeTypeS (ds.foldl setDataS (setDataS initialSession d1)) g
      = some (setDataS
          { ds.foldl setDataS (setDataS initialSession d1) with showGenes := false }
          (filterDataSet d1 g)) ∧
    toggleNodeTypeS
        (setDataS
          { ds.foldl setDataS (setDataS initialSession d1) with showGenes := false }
          (filterDataSet d1 g)) g
      = some (setDataS
          { setDataS
              { ds.foldl setDataS (setDataS initialSession d1) with showGenes := false }
              (filterDataSet d1 g) with showGenes := true }
          d1) := by
  have hinit : (ds.foldl setDataS (setDataS initialSession d1)).initialData = some d1 :=
    foldl_setDataS_initial d1 ds (setDataS initialSession d1) rfl
  have hsg : (ds.foldl setDataS (setDataS initialSession d1)).showGenes = true := by
    rw [foldl_setDataS_showGenes]
    rfl
  refine ⟨hinit, ?_, ?_⟩
  · rw [toggleNodeTypeS]
    simp only [hinit, hsg, Bool.not_true, Bool.false_eq_true, if_false]
  · rw [toggleNodeTypeS]
    have h2init : (setDataS
        { ds.foldl setDataS (setDataS initialSession d1) with showGenes := false }
        (filterDataSet d1 g)).initialData = some d1 :=
      setDataS_initial_some _ _ d1 hinit
    have h2sg : (setDataS
        { ds.foldl setDataS (setDataS initialSession d1) with showGenes := false }
        (filterDataSet d1 g)).showGenes = false := rfl
    simp only [h2init, h2sg, Bool.not_false, if_true]

/-! ## Trackball controls distance clamp (C7)

`atlas-viewer-controls.js` (`AtlasViewerControls`): `update()` recomputes the
eye vector, lets rotate/zoom/pan transform it, sets
`position = target + eye`, and then `checkDistances()` rescales the eye onto
the `[minDistance, maxDistance]` bounds.  The geometry genuinely uses square
roots (`setLength` normalizes), so this component is embedded over `ℝ`;
division by zero in Lean is total (`x / 0 = 0`) where the source produces
`NaN` — both violate the distance bounds when the eye vector is zero. -/

structure Vec3R where
  x : ℝ
  y : ℝ
  z : ℝ

/-- `lengthSq()` of three.js. -/
noncomputable def Vec3R.lengthSq (v : Vec3R) : ℝ := v.x * v.x + v.y * v.y + v.z * v.z

/-- `length()` of three.js: `Math.sqrt(lengthSq())`. -/
noncomputable def Vec3R.length (v : Vec3R) : ℝ := Real.sqrt v.lengthSq

noncomputable def Vec3R.smul (c : ℝ) (v : Vec3R) : Vec3R := ⟨c * v.x, c * v.y, c * v.z⟩

noncomputable def Vec3R.add (a b : Vec3R) : Vec3R := ⟨a.x + b.x, a.y + b.y, a.z + b.z⟩

noncomputable def Vec3R.sub (a b : Vec3R) : Vec3R := ⟨a.x - b.x, a.y - b.y, a.z - b.z⟩

/-- `setLength(l)` of three.js: `normalize().multiplyScalar(l)`, i.e. scale
by `l / length`. -/
noncomputable def setLengthR (v : Vec3R) (l : ℝ) : Vec3R := Vec3R.smul (l / v.length) v

/-- `distance(camera.position, target)`. -/
noncomputable def distR (a b : Vec3R) : ℝ := (Vec3R.sub a b).length

/-- `checkDistances()`: when zoom or pan is enabled, rescale the eye vector
onto `maxDistance` if it is too long and (re-reading the mutated eye) onto
`minDistance` if it is too short, re-deriving `position = target + eye` each
time.  Returns the final `(eye, position)` pair. -/
noncomputable def checkDistances (minD maxD : ℝ) (noZoom noPan : Bool)
    (target eye pos : Vec3R) : Vec3R × Vec3R :=
  if !noZoom || !noPan then
    let st1 : Vec3R × Vec3R :=
      if maxD * maxD < eye.lengthSq then
        let e := setLengthR eye maxD
        (e, Vec3R.add target e)
      else (eye, pos)
    if st1.1.lengthSq < minD * minD then
      let e := setLengthR st1.1 minD
      (e, Vec3R.add target e)
    else st1
  else (eye, pos)

/-- `update()` with the manual rotate/zoom/pan contribution abstracted as the
resulting eye vector `eyeManual`: set `position = target + eye`, clamp the
distances, then `lookAt` (which does not move the position).  Returns the
final camera position. -/
noncomputable def updateCam (minD maxD : ℝ) (noZoom noPan : Bool)
    (target eyeManual : Vec3R) : Vec3R :=
  (checkDistances minD maxD noZoom noPan target eyeManual (Vec3R.add target eyeManual)).2

theorem lengthSq_nonneg (v : Vec3R) : 0 ≤ v.lengthSq := by
  rw [Vec3R.lengthSq]
  nlinarith [sq_nonneg v.x, sq_nonneg v.y, sq_nonneg v.z]

theorem lengthSq_smul (c : ℝ) (v : Vec3R) :
    (Vec3R.smul c v).lengthSq = c * c * v.lengthSq := by
  rw [Vec3R.smul, Vec3R.lengthSq, Vec3R.lengthSq]
  ring

theorem setLengthR_lengthSq (v : Vec3R) (l : ℝ) (hv : v.lengthSq ≠ 0) :
    (setLengthR v l).lengthSq = l * l := by
  rw [setLengthR, lengthSq_smul, Vec3R.length, div_mul_div_comm,
    Real.mul_self_sqrt (lengthSq_nonneg v)]
  exact div_mul_cancel₀ _ hv

theorem sub_add_cancel_vec (t e : Vec3R) : Vec3R.sub (Vec3R.add t e) t = e := by
  rw [Vec3R.add, Vec3R.sub]
  have hx : t.x + e.x - t.x = e.x := by ring
  have hy : t.y + e.y - t.y = e.y := by ring
  have hz : t.z + e.z - t.z = e.z := by ring
  rw [hx, hy, hz]

theorem distR_add_eye (t e : Vec3R) : distR (Vec3R.add t e) t = e.length := by
  rw [distR, sub_add_cancel_vec]

/-- C7 counterexample: with the camera exactly at the controls' target
(`eye = 0`) the clamp cannot rescale anything — `setLength` divides by a
zero length (`NaN` position in the source, the zero vector in this total
embedding) — and the camera-to-target distance after the update is `0`,
outside `[50, 5000]`. -/
theorem camera_distance_unclamped_at_target :
    distR (updateCam 50 5000 false false ⟨0, 0, 0⟩ ⟨0, 0, 0⟩) ⟨0, 0, 0⟩ = 0 ∧
    ¬((50 : ℝ) ≤ 0) := by
  have hzero : (⟨0, 0, 0⟩ : Vec3R).lengthSq = 0 := by
    rw [Vec3R.lengthSq]; ring
  have hlen0 : (⟨0, 0, 0⟩ : Vec3R).length = 0 := by
    rw [Vec3R.length, hzero, Real.sqrt_zero]
  have hsl : ∀ l : ℝ, setLengthR ⟨0, 0, 0⟩ l = ⟨0, 0, 0⟩ := by
    intro l
    rw [setLengthR, Vec3R.smul]
    norm_num
  have hadd : Vec3R.add ⟨0, 0, 0⟩ (⟨0, 0, 0⟩ : Vec3R) = ⟨0, 0, 0⟩ := by
    rw [Vec3R.add]
    norm_num
  have hdist0 : distR (⟨0, 0, 0⟩ : Vec3R) ⟨0, 0, 0⟩ = 0 := by
    have hsub : Vec3R.sub ⟨0, 0, 0⟩ (⟨0, 0, 0⟩ : Vec3R) = ⟨0, 0, 0⟩ := by
      rw [Vec3R.sub]
      norm_num
    rw [distR, hsub, hlen0]
  constructor
  · rw [updateCam, checkDistances]
    simp only [hsl, hadd, hzero]
    split
    · simp [hsl, hadd, hdist0]
    · exact hdist0
  · norm_num

/-- C7 (amended: the camera must not sit exactly on the controls' target,
and zoom or pan must be enabled as by default): after `update()` completes,
the distance between the camera position and the controls' target lies
within `[minDistance, maxDistance]` — the eye vector is rescaled onto the
violated bound, or left alone when already inside. -/
theorem camera_distance_clamped (minD maxD : ℝ) (noZoom noPan : Bool)
    (target eye : Vec3R) (hmin : 0 < minD) (hminmax : minD ≤ maxD)
    (heye : eye.lengthSq ≠ 0) (hgate : noZoom = false ∨ noPan = false) :
    minD ≤ distR (updateCam minD maxD noZoom noPan target eye) target ∧
    distR (updateCam minD maxD noZoom noPan target eye) target ≤ maxD := by
  have hmax : 0 < maxD := lt_of_lt_of_le hmin hminmax
  have hgate' : (!noZoom || !noPan) = true := by
    rcases hgate with h | h <;> simp [h]
  have hminmaxsq : minD * minD ≤ maxD * maxD := by nlinarith
  rw [updateCam, checkDistances, if_pos hgate']
  by_cases h1 : maxD * maxD < eye.lengthSq
  · rw [if_pos h1]
    have hsq1 : (setLengthR eye maxD).lengthSq = maxD * maxD :=
      setLengthR_lengthSq eye maxD heye
    rw [if_neg (by rw [hsq1]; exact not_lt.mpr hminmaxsq)]
    rw [distR_add_eye, Vec3R.length, hsq1,
      Real.sqrt_mul_self (le_of_lt hmax)]
    exact ⟨hminmax, le_refl maxD⟩
  · rw [if_neg h1]
    by_cases h2 : eye.lengthSq < minD * minD
    · rw [if_pos h2]
      have hsq2 : (setLengthR eye minD).lengthSq = minD * minD :=
        setLengthR_lengthSq eye minD heye
      rw [distR_add_eye, Vec3R.length, hsq2,
        Real.sqrt_mul_self (le_of_lt hmin)]
      exact ⟨le_refl minD, hminmax⟩
    · rw [if_neg h2]
      rw [distR_add_eye, Vec3R.length]
      constructor
      · have : minD = Real.sqrt (minD * minD) := (Real.sqrt_mul_self (le_of_lt hmin)).symm
        rw [this]
        exact Real.sqrt_le_sqrt (not_lt.mp h2)
      · have : maxD = Real.sqrt (maxD * maxD) := (Real.sqrt_mul_self (le_of_lt hmax)).symm
        rw [this]
        exact Real.sqrt_le_sqrt (not_lt.mp h1)

/-- Witness for `camera_distance_clamped`: default bounds 50/5000, target at
the origin, eye `(3, 4, 0)` (length 5, too close, rescaled onto 50). -/
theorem camera_distance_clamped_witness :
    (0 : ℝ) < 50 ∧ (50 : ℝ) ≤ 5000 ∧ (⟨3, 4, 0⟩ : Vec3R).lengthSq ≠ 0 ∧
    (50 : ℝ) ≤ distR (updateCam 50 5000 false false ⟨0, 0, 0⟩ ⟨3, 4, 0⟩) ⟨0, 0, 0⟩ ∧
    distR (updateCam 50 5000 false false ⟨0, 0, 0⟩ ⟨3, 4, 0⟩) ⟨0, 0, 0⟩ ≤ 5000 := by
  have hlsq : (⟨3, 4, 0⟩ : Vec3R).lengthSq ≠ 0 := by
    rw [Vec3R.lengthSq]
    norm_num
  have h := camera_distance_clamped 50 5000 false false ⟨0, 0, 0⟩ ⟨3, 4, 0⟩
    (by norm_num) (by norm_num) hlsq (Or.inl rfl)
  exact ⟨by norm_num, by norm_num, hlsq, h.1, h.2⟩

/-! ### `setData` builds parity-well-formed connection records -/

theorem modifyInfoAt_wf (info : List NodeRec) (i : Nat) (f : NodeRec → NodeRec)
    (hinfo : WfInfo info)
    (hf : ∀ node,
      ((∀ c ∈ node.connsFrom, c.index % 2 = 0) ∧ (∀ c ∈ node.connsTo, c.index % 2 = 1)) →
      ((∀ c ∈ (f node).connsFrom, c.index % 2 = 0) ∧
        (∀ c ∈ (f node).connsTo, c.index % 2 = 1))) :
    WfInfo (modifyInfoAt info i f) := by
  rw [modifyInfoAt]
  cases hget : info[i]? with
  | none => exact hinfo
  | some x =>
    intro node hmem
    rcases List.mem_or_eq_of_mem_set hmem with hmem' | rfl
    · exact hinfo node hmem'
    · exact hf x (hinfo x (List.getElem?_mem hget))

theorem linkPhaseStep_wf (pal : Palette) (idxF : String → Option IdxEntry)
    (acc : LinkPhase) (p : Nat × LinkIn) (h : WfInfo acc.nodeInfo) :
    WfInfo (linkPhaseStep pal idxF acc p).nodeInfo := by
  rcases hs : idxF p.2.s with _ | es
  · simp only [linkPhaseStep, hs]
    exact h
  · rcases ht : idxF p.2.t with _ | et
    · simp only [linkPhaseStep, hs, ht]
      exact h
    · simp only [linkPhaseStep, hs, ht]
      apply modifyInfoAt_wf
      · apply modifyInfoAt_wf
        · exact h
        · intro node hnode
          refine ⟨hnode.1, ?_⟩
          intro c hc
          rcases List.mem_append.mp hc with hc' | hc'
          · exact hnode.2 c hc'
          · rw [List.mem_singleton.mp hc']
            show (2 * p.1 + 1) % 2 = 1
            omega
      · intro node hnode
        refine ⟨?_, hnode.2⟩
        intro c hc
        rcases List.mem_append.mp hc with hc' | hc'
        · exact hnode.1 c hc'
        · rw [List.mem_singleton.mp hc']
          show (2 * p.1) % 2 = 0
          omega

theorem linkPhase_wf (pal : Palette) (idxF : String → Option IdxEntry) :
    ∀ (l : List (Nat × LinkIn)) (acc : LinkPhase), WfInfo acc.nodeInfo →
      WfInfo (l.foldl (linkPhaseStep pal idxF) acc).nodeInfo := by
  intro l
  induction l with
  | nil => intro acc h; exact h
  | cons a l ih =>
    intro acc h
    exact ih _ (linkPhaseStep_wf pal idxF acc a h)

theorem nodePhase_wf (pal : Palette) :
    ∀ (l : List (Nat × NodeIn)) (acc : NodePhase), WfInfo acc.nodeInfo →
      WfInfo (l.foldl (nodePhaseStep pal) acc).nodeInfo := by
  intro l
  induction l with
  | nil => intro acc h; exact h
  | cons a l ih =>
    intro acc h
    apply ih
    intro node hmem
    rcases List.mem_append.mp hmem with hmem' | hmem'
    · exact h node hmem'
    · rw [List.mem_singleton.mp hmem']
      exact ⟨fun c hc => absurd hc (List.not_mem_nil c),
        fun c hc => absurd hc (List.not_mem_nil c)⟩

/-- Every record list built by `setData` satisfies the parity
well-formedness that the `select`/`hover` theorems assume: `from` records
hold even slot indices `2 i` and `to` records odd slot indices `2 i + 1`. -/
theorem buildData_wfInfo (pal : Palette) (nodes : List NodeIn) (links : List LinkIn)
    (textures : List TexIn) : WfInfo (buildData pal nodes links textures).nodeInfo := by
  apply linkPhase_wf
  apply nodePhase_wf
  intro node hmem
  exact absurd hmem (List.not_mem_nil node)
